import Mathlib

/-!
Verification development for the SARA finance core (`server/app.py`).

The Python finance pipeline (free-text expense ingestion, category
normalization, sqlite-backed storage and budget summaries) is shallowly
embedded below.  Conventions of the embedding:

* Python strings are `List Char` (`Str`); only ASCII is relevant here.
* Python floats are modelled as exact rationals represented by the
  executable fraction type `PRat` (numerator/denominator over `Int`,
  denominator positive for every value the program builds).  `PRat.toQ`
  maps a representation to the rational number it denotes; theorems about
  numeric results are stated through `toQ`.  This is the usual exact
  idealization of IEEE arithmetic; claim C6 is restricted to amounts with
  at most two decimal digits, where Python float round-trips exactly.
* The external extraction call (`_oai.chat.completions.create` plus
  `json.loads`) is modelled by its observable outcome `ExtractOutcome`:
  the call/parse raised (`failure`), or produced a JSON object
  (`jsonObj`), or produced JSON that is not an object (`jsonOther`).
* sqlite is modelled by an in-memory list of rows plus an id counter;
  `TEXT` comparison in `WHERE` clauses is byte-lexicographic, modelled by
  `strLtB`/`strLeB` on the ISO timestamp strings.
* `datetime.now(timezone.utc).isoformat()` is passed in explicitly as the
  `now` argument of the modelled endpoints.
-/

abbrev Str := List Char

def strL (s : String) : Str := s.data

/-- The ASCII single-quote character, used to spell string constants of the
source that contain apostrophes. -/
def sqc : Char := Char.ofNat 39

/-- Whitespace in the sense of Python `str.split()` / `str.strip()` /
`float()` (ASCII subset). -/
def isSpaceB (c : Char) : Bool :=
  c = ' ' || c = '\t' || c = '\n' || c = '\x0d' || c = '\x0b' || c = '\x0c'

/-- Python `str.strip()` (ASCII whitespace). -/
def stripWs (s : Str) : Str :=
  ((s.dropWhile isSpaceB).reverse.dropWhile isSpaceB).reverse

def lowerChar (c : Char) : Char :=
  if 'A' ≤ c ∧ c ≤ 'Z' then Char.ofNat (c.toNat + 32) else c

def upperChar (c : Char) : Char :=
  if 'a' ≤ c ∧ c ≤ 'z' then Char.ofNat (c.toNat - 32) else c

/-- Python `str.lower()` (ASCII). -/
def lowerStr (s : Str) : Str := s.map lowerChar

/-- Python `str.upper()` (ASCII). -/
def upperStr (s : Str) : Str := s.map upperChar

/-- Predicate: `needle` is a contiguous prefix of `hay`. -/
def hasPfx : Str → Str → Bool
  | [], _ => true
  | _ :: _, [] => false
  | a :: as, b :: bs => a = b && hasPfx as bs

/-- Python substring containment `needle in hay`. -/
def containsB (needle : Str) : Str → Bool
  | [] => needle.isEmpty
  | c :: rest => hasPfx needle (c :: rest) || containsB needle rest

/-- Auxiliary state machine of `splitWs` (current token accumulated in
reverse in `acc`). -/
def splitWsAux : Str → Str → List Str
  | [], acc => if acc.isEmpty then [] else [acc.reverse]
  | c :: rest, acc =>
    if isSpaceB c then
      if acc.isEmpty then splitWsAux rest [] else acc.reverse :: splitWsAux rest []
    else splitWsAux rest (c :: acc)

/-- Python `str.split()` with no argument: split on runs of whitespace,
discarding empty tokens. -/
def splitWs (s : Str) : List Str := splitWsAux s []

/-- Byte-lexicographic strict order on strings, as used by sqlite when
comparing `TEXT` values (`created_at >= ?` etc.); ASCII only. -/
def strLtB : Str → Str → Bool
  | [], [] => false
  | [], _ :: _ => true
  | _ :: _, [] => false
  | a :: as, b :: bs =>
    if a.toNat < b.toNat then true
    else if b.toNat < a.toNat then false
    else strLtB as bs

def strLeB (a b : Str) : Bool := !(strLtB b a)

/-- Decimal digits of `n`, most significant first; `fuel`-structured so the
kernel can evaluate it. -/
def natDigitsAux : Nat → Nat → Str
  | 0, _ => []
  | _ + 1, 0 => []
  | fuel + 1, n => natDigitsAux fuel (n / 10) ++ [Char.ofNat (48 + n % 10)]

/-- Decimal rendering of a natural number. -/
def natRender (n : Nat) : Str :=
  if n = 0 then ['0'] else natDigitsAux (n + 1) n

/-- Decimal rendering of an integer. -/
def intRender (i : Int) : Str :=
  if i < 0 then '-' :: natRender i.natAbs else natRender i.natAbs

/-- Zero-pad a rendered natural to at least `w` characters (as Python
`%02d`-style formatting inside `datetime.isoformat`). -/
def padTo (w : Nat) (n : Nat) : Str :=
  let d := natRender n
  List.replicate (w - d.length) '0' ++ d

/-- Exact rational numbers as unreduced fractions, used to model Python
float values.  Every value constructed by the embedded program has a
positive denominator; operations never normalize, so all arithmetic is
kernel-computable (no gcd). -/
structure PRat where
  num : Int
  den : Int
  deriving DecidableEq, Repr

def PRat.ofInt (n : Int) : PRat := ⟨n, 1⟩

def PRat.add (a b : PRat) : PRat := ⟨a.num * b.den + b.num * a.den, a.den * b.den⟩

def PRat.sub (a b : PRat) : PRat := ⟨a.num * b.den - b.num * a.den, a.den * b.den⟩

def PRat.mul (a b : PRat) : PRat := ⟨a.num * b.num, a.den * b.den⟩

/-- Division; sign moved to the numerator so that the denominator stays
positive whenever the divisor is nonzero (the program only divides under
explicit nonzero guards). -/
def PRat.div (a b : PRat) : PRat :=
  if b.num < 0 then ⟨-(a.num * b.den), a.den * (-b.num)⟩ else ⟨a.num * b.den, a.den * b.num⟩

/-- Value equality on fractions (cross multiplication; faithful to Python
`==` for positive denominators). -/
def PRat.eqb (a b : PRat) : Bool := a.num * b.den = b.num * a.den

def PRat.leb (a b : PRat) : Bool := a.num * b.den ≤ b.num * a.den

def PRat.ltb (a b : PRat) : Bool := a.num * b.den < b.num * a.den

/-- The rational number denoted by a fraction. -/
def PRat.toQ (x : PRat) : ℚ := (x.num : ℚ) / (x.den : ℚ)

/-- Floor of the denoted value (for positive denominators). -/
def PRat.floorI (x : PRat) : Int := Int.fdiv x.num x.den

/-- Python `round(x)` (no digits argument): round half to even, returning
an integer. -/
def bankersRound (x : PRat) : Int :=
  let f := x.floorI
  let r := x.num - f * x.den
  if 2 * r < x.den then f
  else if x.den < 2 * r then f + 1
  else if f % 2 = 0 then f else f + 1

/-- Python `round(x, 2)`: round half to even at two decimal digits. -/
def round2 (x : PRat) : PRat := ⟨bankersRound (x.mul (PRat.ofInt 100)), 100⟩

/-- Rendering used for `f"{v:.2f}"` in the insight strings. -/
def fmt2 (x : PRat) : Str :=
  let c := bankersRound (x.mul (PRat.ofInt 100))
  if c < 0 then '-' :: (natRender (c.natAbs / 100) ++ '.' :: padTo 2 (c.natAbs % 100))
  else natRender (c.natAbs / 100) ++ '.' :: padTo 2 (c.natAbs % 100)

/-- Rendering used for `f"{ratio:.0%}"` in the daily coffee insight. -/
def fmtPct (x : PRat) : Str :=
  intRender (bankersRound (x.mul (PRat.ofInt 100))) ++ ['%']

def natOfDigits (l : List Nat) : Nat := l.foldl (fun a d => a * 10 + d) 0

def digitVal (c : Char) : Option Nat :=
  if '0' ≤ c ∧ c ≤ '9' then some (c.toNat - 48) else none

/-- Greedily read decimal digits. -/
def takeDigits : Str → List Nat × Str
  | [] => ([], [])
  | c :: rest =>
    match digitVal c with
    | some d => let (ds, r) := takeDigits rest; (d :: ds, r)
    | none => ([], c :: rest)

/-- Model of Python `float(str)` restricted to optionally signed finite
decimal literals with surrounding whitespace (`"7"`, `"-3.25"`, `"+.5"`,
`"7."`).  Exponents, `inf`/`nan` and digit underscores are not modelled;
no input considered by the claims uses them.  The result has denominator
`10 ^ (number of fraction digits) > 0`. -/
def parseFloatStr (s0 : Str) : Option PRat :=
  let s := stripWs s0
  let (sgn, s1) : Int × Str :=
    match s with
    | '-' :: r => (-1, r)
    | '+' :: r => (1, r)
    | _ => (1, s)
  let (ids, s2) := takeDigits s1
  match s2 with
  | [] => if ids.isEmpty then none else some ⟨sgn * natOfDigits ids, 1⟩
  | '.' :: s3 =>
    let (fds, s4) := takeDigits s3
    if s4.isEmpty ∧ ¬(ids.isEmpty ∧ fds.isEmpty) then
      some ⟨sgn * (natOfDigits ids * 10 ^ fds.length + natOfDigits fds), (10 : Int) ^ fds.length⟩
    else none
  | _ => none

/-- JSON scalar values as produced by `json.loads` for the fields of the
extraction result.  Nested arrays/objects inside fields are not modelled;
no claim depends on them. -/
inductive JVal where
  | null : JVal
  | bool : Bool → JVal
  | num : PRat → JVal
  | str : Str → JVal
  deriving DecidableEq, Repr

/-- Python truthiness of a JSON scalar (`not data[k]`). -/
def falsy : JVal → Bool
  | .null => true
  | .bool b => !b
  | .num q => PRat.eqb q (PRat.ofInt 0)
  | .str s => s.isEmpty

/-- Python `str(v)` for a JSON scalar.  The rendering of numbers is a
stand-in (`num/den`); the program only ever tests the result for
blankness and uppercases it, and no claim inspects a rendered number. -/
def pyStrJ : JVal → Str
  | .null => strL "None"
  | .bool true => strL "True"
  | .bool false => strL "False"
  | .num q => intRender q.num ++ '/' :: intRender q.den
  | .str s => s

/-- Python `float(v)` for a JSON scalar, `none` when it raises. -/
def pyFloatJ : JVal → Option PRat
  | .null => none
  | .bool b => some (PRat.ofInt (if b then 1 else 0))
  | .num q => some q
  | .str s => parseFloatStr s

/-- Lookup in a JSON object; later duplicate keys shadow earlier ones, as
in `json.loads`. -/
def jget (m : List (Str × JVal)) (k : Str) : Option JVal :=
  match m with
  | [] => none
  | (k2, v) :: rest =>
    match jget rest k with
    | some r => some r
    | none => if k2 = k then some v else none

/-- Observable outcome of the external structured-extraction call
(`_oai.chat.completions.create` + `json.loads` in
`_parse_transaction_input`): the call or the JSON parse raised, or the
parse produced an object, or it produced a non-object JSON value. -/
inductive ExtractOutcome where
  | failure : ExtractOutcome
  | jsonObj : List (Str × JVal) → ExtractOutcome
  | jsonOther : JVal → ExtractOutcome
  deriving DecidableEq, Repr

/-- Python exceptions relevant to the model: the `TypeError` raised by the
field-normalization block when `json.loads` returned a non-object, and
the `AttributeError` raised by `.strip()` on a non-string. -/
inductive PyExn where
  | typeErr : PyExn
  | attrErr : PyExn
  deriving DecidableEq, Repr

def coffee_keywords : List Str :=
  [strL "coffee", strL "latte", strL "espresso", strL "cortado", strL "americano",
   strL "flat white", strL "cold brew", strL "drip", strL "brew"]

def transport_keywords : List Str :=
  [strL "uber", strL "lyft", strL "taxi", strL "cab", strL "mta", strL "subway", strL "train",
   strL "bus", strL "metro", strL "ride"]

def grocery_keywords : List Str :=
  [strL "grocery", strL "groceries", strL "supermarket", strL "whole foods",
   strL "trader joe", strL "bodega", strL "market"]

def subscription_keywords : List Str :=
  [strL "spotify", strL "netflix", strL "apple music", strL "icloud",
   strL "adobe", strL "notion", strL "mubi", strL "hbo", strL "max", strL "youtube premium"]

def rent_keywords : List Str :=
  [strL "rent", strL "landlord", strL "apartment", strL "room"]

def college_keywords : List Str :=
  [strL "tuition", strL "pratt", strL "course", strL "class", strL "college", strL "registration"]

def food_keywords : List Str :=
  [strL "burger", strL "pizza", strL "taco", strL "tacos", strL "sushi", strL "ramen",
   strL "dinner", strL "lunch", strL "breakfast", strL "takeout", strL "delivery"]

/-- Source: `any(k in text_lower for k in kws)`. -/
def anyKeyword (kws : List Str) (lower : Str) : Bool :=
  kws.any (fun k => containsB k lower)

/-- One `if any(...): data["category"] = target` statement. -/
def ruleStep (cond : Bool) (target : Str) (c : JVal) : JVal :=
  if cond then .str target else c

/-- Guard of the food rule: `data.get("category") not in ("coffee", "groceries")`. -/
def notCoffeeGroceries (c : JVal) : Bool :=
  !(c = JVal.str (strL "coffee") || c = JVal.str (strL "groceries"))

/-- The ordered keyword-rule cascade of `_parse_transaction_input`
(coffee, transport, groceries, subscriptions, rent, college, food-guarded). -/
def applyRules (lower : Str) (cat0 : JVal) : JVal :=
  let c1 := ruleStep (anyKeyword coffee_keywords lower) (strL "coffee") cat0
  let c2 := ruleStep (anyKeyword transport_keywords lower) (strL "transport") c1
  let c3 := ruleStep (anyKeyword grocery_keywords lower) (strL "groceries") c2
  let c4 := ruleStep (anyKeyword subscription_keywords lower) (strL "subscriptions") c3
  let c5 := ruleStep (anyKeyword rent_keywords lower) (strL "rent") c4
  let c6 := ruleStep (anyKeyword college_keywords lower) (strL "college") c5
  ruleStep (anyKeyword food_keywords lower && notCoffeeGroceries c6) (strL "food") c6

/-- Source: `if not str(data.get("merchant", "")).strip(): data["merchant"] = "unknown"`. -/
def fixMerchant (mv : Option JVal) : JVal :=
  match mv with
  | none => JVal.str (strL "unknown")
  | some v => if stripWs (pyStrJ v) = [] then JVal.str (strL "unknown") else v

/-- The six fields of the extraction dict that the program reads, each
`none` when the key is absent. -/
structure PDict where
  amount : Option JVal
  currency : Option JVal
  merchant : Option JVal
  category : Option JVal
  created_at_iso : Option JVal
  notes : Option JVal
  deriving DecidableEq, Repr

/-- The normalized record returned by `_parse_transaction_input`. -/
structure Parsed where
  amount : JVal
  currency : JVal
  merchant : JVal
  category : JVal
  created_at_iso : JVal
  notes : JVal
  deriving DecidableEq, Repr

/-- Source: `v or default` on an optional field (`if k not in data or not data[k]`). -/
def orDefault (v : Option JVal) (dflt : JVal) : JVal :=
  match v with
  | none => dflt
  | some w => if falsy w then dflt else w

/-- Source: `amount or 0.0` in the fallback branch. -/
def orZero (q : PRat) : PRat :=
  if PRat.eqb q (PRat.ofInt 0) then PRat.ofInt 0 else q

/-- The token scan of the fallback branch: `amount` starts at `0.0` and the
loop breaks at the first token `float()` accepts. -/
def firstNumTok : List Str → PRat
  | [] => PRat.ofInt 0
  | t :: ts =>
    match parseFloatStr t with
    | some q => q
    | none => firstNumTok ts

/-- The ultra-simple fallback extraction: replace `$` by a space, split on
whitespace, take the first token `float()` accepts. -/
def fallbackAmount (text : Str) : PRat :=
  firstNumTok (splitWs (text.map (fun c => if c = '$' then ' ' else c)))

/-- The dict built by the `except` branch of `_parse_transaction_input`. -/
def fallbackDict (text now : Str) : PDict :=
  ⟨some (.num (orZero (fallbackAmount text))), some (.str (strL "USD")),
   some (.str []), some (.str (strL "other")), some (.str now), some (.str [])⟩

/-- The dict read off a JSON object returned by the extraction service. -/
def dictOfObj (m : List (Str × JVal)) : PDict :=
  ⟨jget m (strL "amount"), jget m (strL "currency"), jget m (strL "merchant"),
   jget m (strL "category"), jget m (strL "created_at_iso"), jget m (strL "notes")⟩

/-- The hard-fallback defaults plus the keyword/merchant heuristics of
`_parse_transaction_input`, applied to the six-field dict. -/
def normalizeParsed (text now : Str) (d : PDict) : Parsed :=
  let amount := d.amount.getD (JVal.num (PRat.ofInt 0))
  let currency := orDefault d.currency (JVal.str (strL "USD"))
  let created := orDefault d.created_at_iso (JVal.str now)
  let cat0 := orDefault d.category (JVal.str (strL "other"))
  let notes := d.notes.getD (JVal.str [])
  let lower := lowerStr text
  let category := applyRules lower cat0
  let merchant := fixMerchant d.merchant
  ⟨amount, currency, merchant, category, created, notes⟩

/-- Source: `_parse_transaction_input(user_text)`, as a function of the external
outcome and of the current UTC time.  A non-object JSON result makes the
field-normalization block raise `TypeError` (`data["amount"] = 0.0` on a
list/str, `"amount" not in data` on a number/bool/null). -/
def parse_transaction_input (text : Str) (svc : ExtractOutcome) (now : Str) :
    Except PyExn Parsed :=
  match svc with
  | .failure => .ok (normalizeParsed text now (fallbackDict text now))
  | .jsonObj m => .ok (normalizeParsed text now (dictOfObj m))
  | .jsonOther _ => .error .typeErr

instance {ε α : Type} [DecidableEq ε] [DecidableEq α] : DecidableEq (Except ε α) := fun a b =>
  match a, b with
  | .ok x, .ok y =>
    if h : x = y then .isTrue (by rw [h]) else .isFalse (by intro hc; cases hc; exact h rfl)
  | .error x, .error y =>
    if h : x = y then .isTrue (by rw [h]) else .isFalse (by intro hc; cases hc; exact h rfl)
  | .ok _, .error _ => .isFalse (by intro hc; cases hc)
  | .error _, .ok _ => .isFalse (by intro hc; cases hc)

/-- A row of the `transactions` table. -/
structure Txn where
  id : Nat
  user_id : Str
  created_at : Str
  amount_cents : Int
  currency : Str
  merchant : Option Str
  raw_input : Str
  category : Str
  emotion : Option Str
  notes : Option Str
  deriving DecidableEq, Repr

/-- The sqlite database: the `transactions` rows in insertion order plus
the next rowid. -/
structure Db where
  rows : List Txn
  nextId : Nat
  deriving DecidableEq, Repr

/-- The response dict of `POST /api/finance/log`. -/
structure TxOut where
  id : Nat
  created_at : Str
  amount : PRat
  currency : Str
  merchant : Option Str
  category : Str
  raw_input : Str
  emotion : Option Str
  notes : Option Str
  deriving DecidableEq, Repr

/-- Errors surfaced by an endpoint: an `HTTPException(status, msg)`, or an
uncaught Python exception (which FastAPI turns into a generic 500). -/
inductive ApiErr where
  | http : Nat → Str → ApiErr
  | uncaught : PyExn → ApiErr
  deriving DecidableEq, Repr

def defaultUser : Str := strL "default"

/-- The caller-facing message of the `amount <= 0` guard. -/
def invalidAmountMsg : Str :=
  strL "I couldn" ++ [sqc] ++
  strL "t see a positive amount in that. Try something like: " ++ [sqc] ++
  strL "record $7 latte at Blue Bottle" ++ [sqc, '.']

/-- Source: `(parsed.get(k) or "").strip() or None` for the merchant and notes
fields; raises `AttributeError` when the value is truthy but not a
string. -/
def stripOrNone (v : JVal) : Except PyExn (Option Str) :=
  if falsy v then .ok none
  else
    match v with
    | .str s => let t := stripWs s; .ok (if t = [] then none else some t)
    | _ => .error .attrErr

/-- Source: `(parsed.get("category") or "other").strip() or "other"`. -/
def stripOtherCat (v : JVal) : Except PyExn Str :=
  if falsy v then .ok (strL "other")
  else
    match v with
    | .str s => let t := stripWs s; .ok (if t = [] then strL "other" else t)
    | _ => .error .attrErr

/-- Source: `float(parsed.get("amount", 0.0))` under `try/except` (`0.0` when the
conversion raises). -/
def resolvedAmount (p : Parsed) : PRat :=
  match pyFloatJ p.amount with
  | some q => q
  | none => PRat.ofInt 0

/-- The part of `api_finance_log` that runs after a successful parse:
amount guard, cents conversion, field coercions, insert and response. -/
def logFromParsed (db : Db) (now text : Str) (emotion : Option Str) (p : Parsed) :
    Db × Except ApiErr TxOut :=
  let amount := resolvedAmount p
  if PRat.leb amount (PRat.ofInt 0) then
    (db, .error (.http 400 invalidAmountMsg))
  else
    let amount_cents : Int := bankersRound (amount.mul (PRat.ofInt 100))
    let currency := upperStr (pyStrJ p.currency)
    match stripOrNone p.merchant with
    | .error e => (db, .error (.uncaught e))
    | .ok merchant =>
      match stripOtherCat p.category with
      | .error e => (db, .error (.uncaught e))
      | .ok category =>
        match stripOrNone p.notes with
        | .error e => (db, .error (.uncaught e))
        | .ok notes =>
          let t : Txn :=
            ⟨db.nextId, defaultUser, now, amount_cents, currency, merchant,
             text, category, emotion, notes⟩
          (⟨db.rows ++ [t], db.nextId + 1⟩,
           .ok ⟨t.id, now, ⟨amount_cents, 100⟩, currency, merchant, category,
                text, emotion, notes⟩)

/-- Source: `(payload.get("emotion") or "").strip() or None`. -/
def emotionOf (emotionRaw : Str) : Option Str :=
  let e := stripWs emotionRaw
  if e = [] then none else some e

/-- Endpoint `POST /api/finance/log`.  `now` is the current UTC time
(`datetime.now(timezone.utc).isoformat()`), `textRaw`/`emotionRaw` are the
payload fields (empty string for an absent/null payload value), `svc` is
the outcome of the external extraction call. -/
def api_finance_log (db : Db) (now textRaw emotionRaw : Str) (svc : ExtractOutcome) :
    Db × Except ApiErr TxOut :=
  let text := stripWs textRaw
  if text = [] then (db, .error (.http 400 (strL "text required")))
  else
    match parse_transaction_input text svc now with
    | .error _ => (db, .error (.http 500 (strL "parse error")))
    | .ok p => logFromParsed db now text (emotionOf emotionRaw) p

/-- Endpoint `DELETE /api/finance/{transaction_id}`: delete scoped to the fixed
user, then 404 when the cursor reports no deleted row. -/
def api_finance_delete (db : Db) (tid : Nat) : Db × Except ApiErr Nat :=
  let remaining := db.rows.filter (fun t => !(t.id = tid && t.user_id = defaultUser))
  let deletedCount := db.rows.length - remaining.length
  let db2 : Db := ⟨remaining, db.nextId⟩
  if deletedCount = 0 then
    (db2, .error (.http 404 (strL "Transaction " ++ natRender tid ++ strL " not found.")))
  else (db2, .ok tid)

/-- The static monthly budget table (USD), in source order. -/
def MONTHLY_BUDGET_BY_CATEGORY : List (Str × PRat) :=
  [(strL "coffee", PRat.ofInt 100),
   (strL "food", PRat.ofInt 300),
   (strL "groceries", PRat.ofInt 200),
   (strL "transport", PRat.ofInt 150),
   (strL "subscriptions", PRat.ofInt 110),
   (strL "rent", PRat.ofInt 875),
   (strL "college", PRat.ofInt 150),
   (strL "fun", PRat.ofInt 100),
   (strL "other", PRat.ofInt 150)]

/-- The closed category set of the data model (spec §3). -/
def closedCategorySet : List Str :=
  [strL "coffee", strL "food", strL "groceries", strL "transport",
   strL "subscriptions", strL "shopping", strL "bills", strL "rent",
   strL "college", strL "fun", strL "other"]

/-- First-match association lookup (Python `dict.get` for dicts built
without duplicate keys). -/
def aget {α : Type} : List (Str × α) → Str → Option α
  | [], _ => none
  | (k2, v) :: rest, k => if k2 = k then some v else aget rest k

/-- Source: `by_category.get(cat, 0.0)`. -/
def getPR (m : List (Str × PRat)) (k : Str) : PRat :=
  (aget m k).getD (PRat.ofInt 0)

/-- Source: `by_category_cents[cat] = by_category_cents.get(cat, 0) + c` preserving
first-insertion key order (Python dict semantics). -/
def upsertAdd : List (Str × Int) → Str → Int → List (Str × Int)
  | [], k, v => [(k, v)]
  | (k2, v2) :: rest, k, v =>
    if k2 = k then (k2, v2 + v) :: rest else (k2, v2) :: upsertAdd rest k v

/-- Source: `(row["category"] or "other").lower()`. -/
def catOf (r : Txn) : Str :=
  lowerStr (if r.category = [] then strL "other" else r.category)

def totalCents (rows : List Txn) : Int :=
  rows.foldl (fun acc r => acc + r.amount_cents) 0

def byCatCents (rows : List Txn) : List (Str × Int) :=
  rows.foldl (fun acc r => upsertAdd acc (catOf r) r.amount_cents) []

def coffeeCents (rows : List Txn) : Int :=
  rows.foldl (fun acc r => if catOf r = strL "coffee" then acc + r.amount_cents else acc) 0

def psum (l : List PRat) : PRat := l.foldl PRat.add (PRat.ofInt 0)

/-- Source: `sum(MONTHLY_BUDGET_BY_CATEGORY.values())`. -/
def budgetTotalPR : PRat := psum (MONTHLY_BUDGET_BY_CATEGORY.map Prod.snd)

def PRat.abs (x : PRat) : PRat := ⟨(Int.natAbs x.num : Int), x.den⟩

def leapYear (y : Nat) : Bool := y % 4 = 0 && (y % 100 ≠ 0 || y % 400 = 0)

def daysInMonth (y m : Nat) : Nat :=
  if m = 2 then (if leapYear y then 29 else 28)
  else if m = 4 || m = 6 || m = 9 || m = 11 then 30
  else 31

/-- Source: `datetime(year, month, 1).isoformat()`. -/
def monthStartIso (y m : Nat) : Str :=
  padTo 4 y ++ '-' :: padTo 2 m ++ '-' :: strL "01T00:00:00"

/-- Source: `month == 12 ? (year+1, 1) : (year, month+1)`. -/
def nextYM (y m : Nat) : Nat × Nat := if m = 12 then (y + 1, 1) else (y, m + 1)

/-- Source: `(next_start - timedelta(microseconds=1)).isoformat()`: the last
microsecond of the month. -/
def monthToDateIso (y m : Nat) : Str :=
  padTo 4 y ++ '-' :: padTo 2 m ++ '-' :: padTo 2 (daysInMonth y m) ++
  strL "T23:59:59.999999"

/-- The rows returned by the monthly `SELECT`:
`user_id = 'default' AND created_at >= start AND created_at < next_start`. -/
def monthRows (db : Db) (y m : Nat) : List Txn :=
  let start := monthStartIso y m
  let nexts := monthStartIso (nextYM y m).1 (nextYM y m).2
  db.rows.filter (fun t =>
    t.user_id = defaultUser && strLeB start t.created_at && strLtB t.created_at nexts)

/-- Values of the summary response dicts. -/
inductive SVal where
  | s : Str → SVal
  | q : PRat → SVal
  | n : Nat → SVal
  | ratMap : List (Str × PRat) → SVal
  deriving DecidableEq, Repr

def overMsg (ou : PRat) : Str :=
  strL "You" ++ [sqc] ++ strL "re $" ++ fmt2 ou.abs ++
  strL " over your configured monthly budget ($" ++ fmt2 budgetTotalPR ++
  strL "). Worth looking at subs, food, and " ++ [sqc] ++ strL "other" ++ [sqc] ++ strL "."

def underMsg (ou : PRat) : Str :=
  strL "You" ++ [sqc] ++ strL "re $" ++ fmt2 ou ++
  strL " under your configured monthly budget ($" ++ fmt2 budgetTotalPR ++
  strL "). Nice. See if any cuts feel easy without feeling restrictive."

/-- Endpoint `GET /api/finance/summary/monthly` for an explicit `year`/`month`. -/
def api_finance_summary_monthly (db : Db) (y m : Nat) : List (Str × SVal) :=
  let start := monthStartIso y m
  let toDate := monthToDateIso y m
  let rows := monthRows db y m
  match rows with
  | [] =>
    [(strL "period", .s (strL "month")), (strL "year", .n y), (strL "month", .n m),
     (strL "from_date", .s start), (strL "to_date", .s toDate),
     (strL "total_spent", .q (PRat.ofInt 0)), (strL "currency", .s (strL "USD")),
     (strL "by_category", .ratMap []),
     (strL "budget_by_category", .ratMap MONTHLY_BUDGET_BY_CATEGORY),
     (strL "diff_by_category", .ratMap []),
     (strL "budget_total", .q budgetTotalPR),
     (strL "over_under_total", .q budgetTotalPR),
     (strL "transaction_count", .n 0),
     (strL "insight", .s (strL "No spending logged for this month yet."))]
  | r0 :: _ =>
    let totC := totalCents rows
    let total : PRat := ⟨totC, 100⟩
    let byCat := (byCatCents rows).map (fun p => (p.1, (⟨p.2, 100⟩ : PRat)))
    let diff := MONTHLY_BUDGET_BY_CATEGORY.map
      (fun p => (p.1, round2 (p.2.sub (getPR byCat p.1))))
    let ou := round2 (budgetTotalPR.sub total)
    let insight := if PRat.ltb ou (PRat.ofInt 0) then overMsg ou else underMsg ou
    [(strL "period", .s (strL "month")), (strL "year", .n y), (strL "month", .n m),
     (strL "from_date", .s start), (strL "to_date", .s toDate),
     (strL "total_spent", .q total), (strL "currency", .s r0.currency),
     (strL "by_category", .ratMap byCat),
     (strL "budget_by_category", .ratMap MONTHLY_BUDGET_BY_CATEGORY),
     (strL "diff_by_category", .ratMap diff),
     (strL "budget_total", .q budgetTotalPR),
     (strL "over_under_total", .q ou),
     (strL "transaction_count", .n rows.length),
     (strL "insight", .s insight)]

def dayStartIso (y m d : Nat) : Str :=
  padTo 4 y ++ '-' :: padTo 2 m ++ '-' :: padTo 2 d ++ strL "T00:00:00"

def dayEndIso (y m d : Nat) : Str :=
  padTo 4 y ++ '-' :: padTo 2 m ++ '-' :: padTo 2 d ++ strL "T23:59:59.999999"

/-- The rows returned by the daily `SELECT`
(`created_at BETWEEN start AND end`, both bounds inclusive). -/
def dayRows (db : Db) (y m d : Nat) : List Txn :=
  db.rows.filter (fun t =>
    t.user_id = defaultUser && strLeB (dayStartIso y m d) t.created_at &&
    strLeB t.created_at (dayEndIso y m d))

/-- Endpoint `GET /api/finance/summary/daily`, with `datetime.now().date()` passed
explicitly as `y`/`m`/`d`. -/
def api_finance_summary_daily (db : Db) (y m d : Nat) : List (Str × SVal) :=
  let rows := dayRows db y m d
  match rows with
  | [] =>
    [(strL "period", .s (strL "today")),
     (strL "from_date", .s (dayStartIso y m d)), (strL "to_date", .s (dayEndIso y m d)),
     (strL "total_spent", .q (PRat.ofInt 0)), (strL "currency", .s (strL "USD")),
     (strL "by_category", .ratMap []), (strL "coffee_spent", .q (PRat.ofInt 0)),
     (strL "transaction_count", .n 0),
     (strL "insight", .s (strL "No spending logged yet. Try adding one thing, even if it" ++
        [sqc] ++ strL "s tiny."))]
  | r0 :: _ =>
    let total : PRat := ⟨totalCents rows, 100⟩
    let coffee : PRat := ⟨coffeeCents rows, 100⟩
    let byCat := (byCatCents rows).map (fun p => (p.1, (⟨p.2, 100⟩ : PRat)))
    let insight :=
      if PRat.ltb (PRat.ofInt 0) coffee && PRat.ltb (PRat.ofInt 0) total then
        let ratio := coffee.div total
        if PRat.ltb ⟨3, 10⟩ ratio then
          strL "Coffee is " ++ fmtPct ratio ++
          strL " of your spending today. Are these rushed days or intentional rituals?"
        else strL "Your coffee spending is present but not dominating today."
      else strL "No coffee logged today. How are your energy rituals showing up instead?"
    [(strL "period", .s (strL "today")),
     (strL "from_date", .s (dayStartIso y m d)), (strL "to_date", .s (dayEndIso y m d)),
     (strL "total_spent", .q total), (strL "currency", .s r0.currency),
     (strL "by_category", .ratMap byCat), (strL "coffee_spent", .q coffee),
     (strL "transaction_count", .n rows.length),
     (strL "insight", .s insight)]

/-- The keys of a summary response, in order. -/
def keysOf (o : List (Str × SVal)) : List Str := o.map Prod.fst

/-- Lookup of a summary field. -/
def sget (o : List (Str × SVal)) (k : Str) : Option SVal := aget o k

/-- Strip one leading `$` from a token. -/
def stripDollarLead (t : Str) : Str :=
  match t with
  | '$' :: r => r
  | _ => t

/-- Token scan of the spec-worded fallback: first token parseable after
stripping a leading currency symbol. -/
def firstNumTokStripped : List Str → PRat
  | [] => PRat.ofInt 0
  | t :: ts =>
    match parseFloatStr (stripDollarLead t) with
    | some q => q
    | none => firstNumTokStripped ts

/-- Modelled from the spec (§4.2 fallback wording, quoted by claim C7):
scan the whitespace-delimited tokens of the raw text and use the first one
that parses as a number after stripping a leading currency symbol.  This
is the claim-side definition; the code-side definition is
`fallbackAmount`. -/
def specFallbackAmount (text : Str) : PRat :=
  firstNumTokStripped (splitWs text)

/-- The match predicate of the delete statement
(`WHERE id = ? AND user_id = 'default'`). -/
def delMatches (tid : Nat) (t : Txn) : Prop := t.id = tid ∧ t.user_id = defaultUser

instance (tid : Nat) (t : Txn) : Decidable (delMatches tid t) := by
  unfold delMatches; infer_instance

/-- The targets of the seven keyword rules, in evaluation order. -/
def ruleTargetList : List Str :=
  [strL "coffee", strL "transport", strL "groceries", strL "subscriptions",
   strL "rent", strL "college", strL "food"]

/-- Some keyword rule of the cascade fires on the lower-cased text. -/
def ruleFires (lower : Str) : Bool :=
  anyKeyword coffee_keywords lower || anyKeyword transport_keywords lower ||
  anyKeyword grocery_keywords lower || anyKeyword subscription_keywords lower ||
  anyKeyword rent_keywords lower || anyKeyword college_keywords lower ||
  anyKeyword food_keywords lower

/-- The category of a successful ingestion response. -/
def okCategory (e : Except ApiErr TxOut) : Option Str :=
  match e with
  | .ok o => some o.category
  | _ => none

/-- The extraction outcome carries a category value the heuristics can
normalize into the closed set: the key is absent or falsy (defaulted to
`other`), or it is a string that strips to the empty string (coerced to
`other`) or to a member of the closed set. -/
def svcCategorySafe (svc : ExtractOutcome) : Prop :=
  match svc with
  | .jsonObj m =>
    match jget m (strL "category") with
    | none => True
    | some v => falsy v = true ∨
        ∃ s, v = .str s ∧ (stripWs s = [] ∨ stripWs s ∈ closedCategorySet)
  | _ => True

/-- The external outcome is an exception or a JSON object (the cases in
which the parser is total). -/
def svcObjOrFailure (svc : ExtractOutcome) : Prop :=
  match svc with
  | .jsonOther _ => False
  | _ => True

/-- Source: `by_category_cents.get(cat, 0)`. -/
def getCents (mp : List (Str × Int)) (k : Str) : Int := (aget mp k).getD 0

/-- The cents spent in category `c` over `rows` (specification-side sum). -/
def spentCents (rows : List Txn) (c : Str) : Int :=
  rows.foldl (fun a r => if catOf r = c then a + r.amount_cents else a) 0

/-- The rational number reported as `total_spent` by the monthly summary. -/
def totalSpentQ (db : Db) (y m : Nat) : ℚ :=
  match sget (api_finance_summary_monthly db y m) (strL "total_spent") with
  | some (.q v) => v.toQ
  | _ => 0

/-- The rational number reported as `over_under_total` by the monthly
summary. -/
def overUnderQ (db : Db) (y m : Nat) : ℚ :=
  match sget (api_finance_summary_monthly db y m) (strL "over_under_total") with
  | some (.q v) => v.toQ
  | _ => 0

/-! ## Lemmas and claim theorems -/

lemma delPred_iff (tid : Nat) (t : Txn) :
    (!(t.id = tid && t.user_id = defaultUser)) = true ↔ ¬ delMatches tid t := by
  simp [delMatches]
  tauto

lemma delFilter_eq_self_iff (db : Db) (tid : Nat) :
    db.rows.filter (fun t => !(t.id = tid && t.user_id = defaultUser)) = db.rows
      ↔ ∀ t ∈ db.rows, ¬ delMatches tid t := by
  rw [List.filter_eq_self]
  constructor
  · intro h t ht
    exact (delPred_iff tid t).mp (h t ht)
  · intro h t ht
    exact (delPred_iff tid t).mpr (h t ht)

lemma delete_count_zero_iff (db : Db) (tid : Nat) :
    db.rows.length -
        (db.rows.filter (fun t => !(t.id = tid && t.user_id = defaultUser))).length = 0
      ↔ ∀ t ∈ db.rows, ¬ delMatches tid t := by
  rw [← delFilter_eq_self_iff]
  constructor
  · intro h
    have hle := List.length_filter_le
      (fun t => !(t.id = tid && t.user_id = defaultUser)) db.rows
    exact (List.filter_sublist db.rows).eq_of_length (Nat.le_antisymm hle (by omega))
  · intro h
    rw [h]
    omega

/-- Claim C9: deletion by id succeeds exactly when a transaction with that
id owned by the requesting `user_id` (`"default"`) exists; when no such
row exists the operation reports a 404 not-found and leaves the store
unchanged; and in every case no row belonging to another `user_id` is
removed. -/
theorem claim_C9_delete (db : Db) (tid : Nat) :
    ((api_finance_delete db tid).2 = .ok tid ↔ ∃ t ∈ db.rows, delMatches tid t) ∧
    ((¬ ∃ t ∈ db.rows, delMatches tid t) →
      (api_finance_delete db tid).1 = db ∧
      (api_finance_delete db tid).2
        = .error (.http 404 (strL "Transaction " ++ natRender tid ++ strL " not found."))) ∧
    (∀ t ∈ db.rows, t.user_id ≠ defaultUser → t ∈ (api_finance_delete db tid).1.rows) := by
  unfold api_finance_delete
  dsimp only
  by_cases hz : db.rows.length -
      (db.rows.filter (fun t => !(t.id = tid && t.user_id = defaultUser))).length = 0
  · have hno := (delete_count_zero_iff db tid).mp hz
    have hrem := (delFilter_eq_self_iff db tid).mpr hno
    rw [if_pos hz]
    refine ⟨?_, ?_, ?_⟩
    · constructor
      · intro h
        exact Except.noConfusion h
      · rintro ⟨t, ht, hm⟩
        exact absurd hm (hno t ht)
    · intro _
      refine ⟨?_, rfl⟩
      show (⟨_, db.nextId⟩ : Db) = db
      rw [hrem]
    · intro t ht _
      show t ∈ db.rows.filter _
      simp only [hrem]
      exact ht
  · have hex : ¬ ∀ t ∈ db.rows, ¬ delMatches tid t :=
      fun h => hz ((delete_count_zero_iff db tid).mpr h)
    push_neg at hex
    rw [if_neg hz]
    refine ⟨?_, ?_, ?_⟩
    · constructor
      · intro _
        rcases hex with ⟨t, ht, hm⟩
        exact ⟨t, ht, hm⟩
      · intro _
        rfl
    · intro hno
      exfalso
      rcases hex with ⟨t, ht, hm⟩
      exact hno ⟨t, ht, hm⟩
    · intro t ht hu
      show t ∈ db.rows.filter _
      refine List.mem_filter.mpr ⟨ht, ?_⟩
      exact (delPred_iff tid t).mpr (fun hm => hu hm.2)

/-- Witness for C9 at a concrete store: id 2 is owned by `"default"` and
its deletion succeeds. -/
theorem claim_C9_witness :
    (∃ t ∈ (⟨[⟨2, strL "default", strL "2025-06-05T10:00:00", 1500, strL "USD",
        none, strL "x", strL "food", none, none⟩,
      ⟨3, strL "alice", strL "2025-06-05T11:00:00", 700, strL "USD",
        none, strL "y", strL "coffee", none, none⟩], 4⟩ : Db).rows, delMatches 2 t) ∧
    (api_finance_delete ⟨[⟨2, strL "default", strL "2025-06-05T10:00:00", 1500, strL "USD",
        none, strL "x", strL "food", none, none⟩,
      ⟨3, strL "alice", strL "2025-06-05T11:00:00", 700, strL "USD",
        none, strL "y", strL "coffee", none, none⟩], 4⟩ 2).2 = .ok 2 :=
  ⟨by decide, (claim_C9_delete _ 2).1.mpr (by decide)⟩

lemma PRat.toQ_ofInt (n : Int) : (PRat.ofInt n).toQ = (n : ℚ) := by
  simp [PRat.ofInt, PRat.toQ]

lemma PRat.leb_zero_iff (a : PRat) (h : 0 < a.den) :
    PRat.leb a (PRat.ofInt 0) = true ↔ a.toQ ≤ 0 := by
  have hdq : (0 : ℚ) < (a.den : ℚ) := by exact_mod_cast h
  simp only [PRat.leb, PRat.ofInt, PRat.toQ]
  rw [div_nonpos_iff]
  constructor
  · intro hle
    have : a.num ≤ 0 := by simpa using hle
    right
    exact ⟨by exact_mod_cast this, le_of_lt hdq⟩
  · rintro (⟨h1, h2⟩ | ⟨h1, h2⟩)
    · exact absurd h2 (not_le.mpr hdq)
    · have : a.num ≤ 0 := by exact_mod_cast h1
      simpa using this

lemma bankersRound_intMul (n d : Int) (hd : 0 < d) :
    bankersRound ⟨n * d, d⟩ = n := by
  unfold bankersRound PRat.floorI
  have hf : Int.fdiv (n * d) d = n := Int.mul_fdiv_cancel n (ne_of_gt hd)
  simp only [hf]
  have : n * d - n * d = 0 := by ring
  rw [this]
  simp [hd]

lemma PRat.toQ_sub (a b : PRat) (ha : a.den ≠ 0) (hb : b.den ≠ 0) :
    (a.sub b).toQ = a.toQ - b.toQ := by
  have haq : (a.den : ℚ) ≠ 0 := by exact_mod_cast ha
  have hbq : (b.den : ℚ) ≠ 0 := by exact_mod_cast hb
  simp only [PRat.sub, PRat.toQ]
  push_cast
  field_simp
  ring

lemma PRat.toQ_mk100 (k : Int) : (⟨k, 100⟩ : PRat).toQ = (k : ℚ) / 100 := by
  simp [PRat.toQ]

lemma toQ_round2_den1 (x : PRat) (hx : x.den = 1) : (round2 x).toQ = x.toQ := by
  unfold round2
  have hm : x.mul (PRat.ofInt 100) = ⟨(x.num * 100) * 1, 1⟩ := by
    simp [PRat.mul, PRat.ofInt, hx]
  rw [hm, bankersRound_intMul _ _ (by norm_num)]
  rw [PRat.toQ_mk100]
  simp [PRat.toQ, hx]

lemma toQ_round2_den100 (x : PRat) (hx : x.den = 100) : (round2 x).toQ = x.toQ := by
  unfold round2
  have hm : x.mul (PRat.ofInt 100) = ⟨x.num * 100, 100⟩ := by
    simp [PRat.mul, PRat.ofInt, hx]
  rw [hm, bankersRound_intMul _ _ (by norm_num)]
  rw [PRat.toQ_mk100]
  simp [PRat.toQ, hx]

lemma ruleStep_eq_or (b : Bool) (t : Str) (c : JVal) :
    ruleStep b t c = c ∨ ruleStep b t c = .str t := by
  unfold ruleStep
  split
  · right
    rfl
  · left
    rfl

lemma ruleStep_preserve (P : JVal → Prop) (b : Bool) (t : Str) (c : JVal)
    (hc : P c) (ht : P (.str t)) : P (ruleStep b t c) := by
  rcases ruleStep_eq_or b t c with h | h <;> rw [h]
  exacts [hc, ht]

/-- The cascade either leaves the category unchanged or replaces it by one
of the seven rule targets. -/
lemma applyRules_cases (lower : Str) (c : JVal) :
    applyRules lower c = c ∨ ∃ s ∈ ruleTargetList, applyRules lower c = .str s := by
  unfold applyRules
  have step : ∀ (b : Bool) (t : Str), t ∈ ruleTargetList → ∀ v : JVal,
      (v = c ∨ ∃ s ∈ ruleTargetList, v = .str s) →
      (ruleStep b t v = c ∨ ∃ s ∈ ruleTargetList, ruleStep b t v = .str s) := by
    intro b t ht v hv
    rcases ruleStep_eq_or b t v with h | h <;> rw [h]
    · exact hv
    · exact Or.inr ⟨t, ht, rfl⟩
  exact step _ _ (by decide) _ (step _ _ (by decide) _ (step _ _ (by decide) _
    (step _ _ (by decide) _ (step _ _ (by decide) _ (step _ _ (by decide) _
      (step _ _ (by decide) _ (Or.inl rfl)))))))

lemma ruleStep_false (t : Str) (c : JVal) : ruleStep false t c = c := rfl

lemma ruleStep_true (t : Str) (c : JVal) : ruleStep true t c = .str t := rfl

/-- When no keyword rule fires, the cascade is the identity. -/
lemma applyRules_id_of_not_fires (lower : Str) (c : JVal) (h : ruleFires lower = false) :
    applyRules lower c = c := by
  unfold ruleFires at h
  simp only [Bool.or_eq_false_iff] at h
  obtain ⟨⟨⟨⟨⟨⟨h1, h2⟩, h3⟩, h4⟩, h5⟩, h6⟩, h7⟩ := h
  unfold applyRules
  rw [h1, h2, h3, h4, h5, h6, h7]
  simp only [ruleStep_false, Bool.false_and]

/-- When some keyword rule fires, the cascade yields a category from the
closed set. -/
lemma applyRules_closed_of_fires (lower : Str) (c : JVal) (h : ruleFires lower = true) :
    ∃ s ∈ closedCategorySet, applyRules lower c = .str s := by
  have pres : ∀ (b : Bool) (t : Str), t ∈ closedCategorySet → ∀ v : JVal,
      (∃ s ∈ closedCategorySet, v = .str s) →
      ∃ s ∈ closedCategorySet, ruleStep b t v = .str s := by
    intro b t ht v hv
    rcases ruleStep_eq_or b t v with he | he <;> rw [he]
    · exact hv
    · exact ⟨t, ht, rfl⟩
  unfold ruleFires at h
  unfold applyRules
  dsimp only
  by_cases h1 : anyKeyword coffee_keywords lower = true
  · rw [h1, ruleStep_true]
    exact pres _ _ (by decide) _ (pres _ _ (by decide) _ (pres _ _ (by decide) _
      (pres _ _ (by decide) _ (pres _ _ (by decide) _ (pres _ _ (by decide) _
        ⟨strL "coffee", by decide, rfl⟩)))))
  · rw [Bool.not_eq_true] at h1
    by_cases h2 : anyKeyword transport_keywords lower = true
    · rw [h2, ruleStep_true]
      exact pres _ _ (by decide) _ (pres _ _ (by decide) _ (pres _ _ (by decide) _
        (pres _ _ (by decide) _ (pres _ _ (by decide) _
          ⟨strL "transport", by decide, rfl⟩))))
    · rw [Bool.not_eq_true] at h2
      by_cases h3 : anyKeyword grocery_keywords lower = true
      · rw [h3, ruleStep_true]
        exact pres _ _ (by decide) _ (pres _ _ (by decide) _ (pres _ _ (by decide) _
          (pres _ _ (by decide) _ ⟨strL "groceries", by decide, rfl⟩)))
      · rw [Bool.not_eq_true] at h3
        by_cases h4 : anyKeyword subscription_keywords lower = true
        · rw [h4, ruleStep_true]
          exact pres _ _ (by decide) _ (pres _ _ (by decide) _ (pres _ _ (by decide) _
            ⟨strL "subscriptions", by decide, rfl⟩))
        · rw [Bool.not_eq_true] at h4
          by_cases h5 : anyKeyword rent_keywords lower = true
          · rw [h5, ruleStep_true]
            exact pres _ _ (by decide) _ (pres _ _ (by decide) _
              ⟨strL "rent", by decide, rfl⟩)
          · rw [Bool.not_eq_true] at h5
            by_cases h6 : anyKeyword college_keywords lower = true
            · rw [h6, ruleStep_true]
              exact pres _ _ (by decide) _ ⟨strL "college", by decide, rfl⟩
            · rw [Bool.not_eq_true] at h6
              have h7 : anyKeyword food_keywords lower = true := by
                rw [h1, h2, h3, h4, h5, h6] at h
                simpa using h
              rw [h1, h2, h3, h4, h5, h6]
              simp only [ruleStep_false]
              rw [h7, Bool.true_and]
              by_cases hg : notCoffeeGroceries c = true
              · rw [hg, ruleStep_true]
                exact ⟨strL "food", by decide, rfl⟩
              · rw [Bool.not_eq_true] at hg
                rw [hg, ruleStep_false]
                unfold notCoffeeGroceries at hg
                simp only [Bool.not_eq_false', Bool.or_eq_true, decide_eq_true_eq] at hg
                rcases hg with hg | hg <;> rw [hg]
                · exact ⟨strL "coffee", by decide, rfl⟩
                · exact ⟨strL "groceries", by decide, rfl⟩

lemma log_ok_of (db : Db) (now text : Str) (emotion : Option Str) (p : Parsed)
    (merchant notes : Option Str) (category : Str)
    (hleb : PRat.leb (resolvedAmount p) (PRat.ofInt 0) = false)
    (hm : stripOrNone p.merchant = .ok merchant)
    (hc : stripOtherCat p.category = .ok category)
    (hn : stripOrNone p.notes = .ok notes) :
    logFromParsed db now text emotion p =
      (⟨db.rows ++ [⟨db.nextId, defaultUser, now,
          bankersRound ((resolvedAmount p).mul (PRat.ofInt 100)),
          upperStr (pyStrJ p.currency), merchant, text, category, emotion, notes⟩],
        db.nextId + 1⟩,
       .ok ⟨db.nextId, now, ⟨bankersRound ((resolvedAmount p).mul (PRat.ofInt 100)), 100⟩,
          upperStr (pyStrJ p.currency), merchant, category, text, emotion, notes⟩) := by
  unfold logFromParsed
  dsimp only
  rw [hleb]
  simp only [Bool.false_eq_true, if_false, hm, hc, hn]

lemma log_ok_inv (db : Db) (now text : Str) (emotion : Option Str) (p : Parsed)
    (db2 : Db) (out : TxOut)
    (h : logFromParsed db now text emotion p = (db2, .ok out)) :
    PRat.leb (resolvedAmount p) (PRat.ofInt 0) = false ∧
    ∃ merchant category notes,
      stripOrNone p.merchant = .ok merchant ∧
      stripOtherCat p.category = .ok category ∧
      stripOrNone p.notes = .ok notes ∧
      out = ⟨db.nextId, now, ⟨bankersRound ((resolvedAmount p).mul (PRat.ofInt 100)), 100⟩,
        upperStr (pyStrJ p.currency), merchant, category, text, emotion, notes⟩ ∧
      db2 = ⟨db.rows ++ [⟨db.nextId, defaultUser, now,
        bankersRound ((resolvedAmount p).mul (PRat.ofInt 100)),
        upperStr (pyStrJ p.currency), merchant, text, category, emotion, notes⟩],
        db.nextId + 1⟩ := by
  unfold logFromParsed at h
  dsimp only at h
  by_cases hleb : PRat.leb (resolvedAmount p) (PRat.ofInt 0) = true
  · rw [hleb] at h
    simp at h
  · rw [Bool.not_eq_true] at hleb
    rw [hleb] at h
    simp only [Bool.false_eq_true, if_false] at h
    refine ⟨hleb, ?_⟩
    rcases hmv : stripOrNone p.merchant with e | merchant <;> rw [hmv] at h
    · simp at h
    rcases hcv : stripOtherCat p.category with e | category <;> rw [hcv] at h
    · simp at h
    rcases hnv : stripOrNone p.notes with e | notes <;> rw [hnv] at h
    · simp at h
    refine ⟨merchant, category, notes, rfl, rfl, rfl, ?_, ?_⟩
    · have := congrArg Prod.snd h
      simp at this
      exact this.symm
    · have := congrArg Prod.fst h
      simp at this
      exact this.symm

lemma api_log_ok_inv (db : Db) (now textRaw emotionRaw : Str) (svc : ExtractOutcome)
    (db2 : Db) (out : TxOut)
    (h : api_finance_log db now textRaw emotionRaw svc = (db2, .ok out)) :
    stripWs textRaw ≠ [] ∧
    ∃ p, parse_transaction_input (stripWs textRaw) svc now = .ok p ∧
      logFromParsed db now (stripWs textRaw) (emotionOf emotionRaw) p = (db2, .ok out) := by
  unfold api_finance_log at h
  by_cases ht : stripWs textRaw = []
  · rw [if_pos ht] at h
    simp at h
  · rw [if_neg ht] at h
    refine ⟨ht, ?_⟩
    rcases hpv : parse_transaction_input (stripWs textRaw) svc now with e | p <;> rw [hpv] at h
    · simp at h
    · exact ⟨p, rfl, h⟩

lemma api_log_ok_of (db : Db) (now textRaw emotionRaw : Str) (svc : ExtractOutcome)
    (p : Parsed)
    (ht : stripWs textRaw ≠ [])
    (hp : parse_transaction_input (stripWs textRaw) svc now = .ok p) :
    api_finance_log db now textRaw emotionRaw svc
      = logFromParsed db now (stripWs textRaw) (emotionOf emotionRaw) p := by
  unfold api_finance_log
  rw [if_neg ht, hp]

/-- Claim C3: ingestion fails with the `InvalidAmount` bad-request error
(HTTP 400, message suggesting the corrective example phrasing
`record $7 latte at Blue Bottle`) exactly when the resolved amount is
less than or equal to zero, and in that case the store is unchanged. -/
theorem claim_C3_invalid_amount (db : Db) (now textRaw emotionRaw : Str)
    (svc : ExtractOutcome) (p : Parsed)
    (ht : stripWs textRaw ≠ [])
    (hp : parse_transaction_input (stripWs textRaw) svc now = .ok p)
    (hden : 0 < (resolvedAmount p).den) :
    ((api_finance_log db now textRaw emotionRaw svc).2 = .error (.http 400 invalidAmountMsg)
        ↔ (resolvedAmount p).toQ ≤ 0) ∧
    ((resolvedAmount p).toQ ≤ 0 → (api_finance_log db now textRaw emotionRaw svc).1 = db) ∧
    containsB (strL "record $7 latte at Blue Bottle") invalidAmountMsg = true := by
  rw [api_log_ok_of db now textRaw emotionRaw svc p ht hp]
  by_cases hleb : PRat.leb (resolvedAmount p) (PRat.ofInt 0) = true
  · have hq := (PRat.leb_zero_iff _ hden).mp hleb
    have hres : logFromParsed db now (stripWs textRaw) (emotionOf emotionRaw) p
        = (db, .error (.http 400 invalidAmountMsg)) := by
      unfold logFromParsed
      dsimp only
      rw [hleb]
      simp
    rw [hres]
    exact ⟨iff_of_true rfl hq, fun _ => rfl, by decide⟩
  · rw [Bool.not_eq_true] at hleb
    have hq : ¬ (resolvedAmount p).toQ ≤ 0 := by
      intro hc
      have hx := (PRat.leb_zero_iff _ hden).mpr hc
      rw [hleb] at hx
      exact Bool.false_ne_true hx
    refine ⟨?_, fun hc => absurd hc hq, by decide⟩
    refine ⟨?_, fun hc => absurd hc hq⟩
    intro hres
    exfalso
    unfold logFromParsed at hres
    dsimp only at hres
    rw [hleb] at hres
    simp only [Bool.false_eq_true, if_false] at hres
    rcases hmv : stripOrNone p.merchant with e | mr <;> rw [hmv] at hres
    · simp at hres
    rcases hcv : stripOtherCat p.category with e | cat <;> rw [hcv] at hres
    · simp at hres
    rcases hnv : stripOrNone p.notes with e | nt <;> rw [hnv] at hres
    · simp at hres
    simp at hres

/-- Witness for C3: `recorded a refund of $0` with a failing external call
resolves the amount to `0`, which is rejected with the 400 error and
leaves the store unchanged. -/
theorem claim_C3_witness :
    (stripWs (strL "recorded a refund of $0") ≠ [] ∧
     parse_transaction_input (stripWs (strL "recorded a refund of $0")) .failure
        (strL "2025-06-15T12:00:00+00:00")
       = .ok ⟨.num ⟨0, 1⟩, .str (strL "USD"), .str (strL "unknown"), .str (strL "other"),
              .str (strL "2025-06-15T12:00:00+00:00"), .str []⟩) ∧
    ((api_finance_log ⟨[], 1⟩ (strL "2025-06-15T12:00:00+00:00")
        (strL "recorded a refund of $0") [] .failure).2
      = .error (.http 400 invalidAmountMsg) ∧
     (api_finance_log ⟨[], 1⟩ (strL "2025-06-15T12:00:00+00:00")
        (strL "recorded a refund of $0") [] .failure).1 = ⟨[], 1⟩) := by
  have h := claim_C3_invalid_amount ⟨[], 1⟩ (strL "2025-06-15T12:00:00+00:00")
    (strL "recorded a refund of $0") [] .failure
    ⟨.num ⟨0, 1⟩, .str (strL "USD"), .str (strL "unknown"), .str (strL "other"),
     .str (strL "2025-06-15T12:00:00+00:00"), .str []⟩
    (by decide) (by decide) (by decide)
  have hz : (resolvedAmount ⟨.num ⟨0, 1⟩, .str (strL "USD"), .str (strL "unknown"),
      .str (strL "other"), .str (strL "2025-06-15T12:00:00+00:00"), .str []⟩).toQ ≤ 0 := by
    simp [resolvedAmount, pyFloatJ, PRat.toQ]
  exact ⟨⟨by decide, by decide⟩, h.1.mpr hz, h.2.1 hz⟩

lemma stripOtherCat_targets : ∀ s ∈ ruleTargetList, stripOtherCat (JVal.str s) = .ok s := by
  decide

lemma stripOtherCat_applyRules_other (lower : Str) :
    ∃ c, stripOtherCat (applyRules lower (JVal.str (strL "other"))) = .ok c := by
  rcases applyRules_cases lower (.str (strL "other")) with h | ⟨s, hs, h⟩ <;> rw [h]
  · exact ⟨strL "other", by decide⟩
  · exact ⟨s, stripOtherCat_targets s hs⟩

/-- Claim C6: for every parsed amount representing `k / 100` with `k > 0`
(that is, an amount with at most two decimal digits), ingestion stores
`amount_cents = k`, obtained by round-half-to-even on `amount * 100`, and
the returned `amount = amount_cents / 100` denotes exactly the parsed
amount. -/
theorem claim_C6_cents_roundtrip (db : Db) (now textRaw emotionRaw : Str) (k : Int) (q : PRat)
    (ht : stripWs textRaw ≠ [])
    (hden : 0 < q.den) (hq : 100 * q.num = k * q.den) (hk : 0 < k) :
    ∃ db2 out,
      api_finance_log db now textRaw emotionRaw (.jsonObj [(strL "amount", .num q)])
        = (db2, .ok out) ∧
      out.amount = ⟨k, 100⟩ ∧
      out.amount = ⟨bankersRound (q.mul (PRat.ofInt 100)), 100⟩ ∧
      out.amount.toQ = q.toQ ∧
      ∃ t, db2.rows = db.rows ++ [t] ∧ t.amount_cents = k := by
  have hnum : 0 < q.num := by
    have h1 : 0 < k * q.den := mul_pos hk hden
    rw [← hq] at h1
    omega
  have hp : parse_transaction_input (stripWs textRaw)
      (.jsonObj [(strL "amount", .num q)]) now
      = .ok ⟨.num q, .str (strL "USD"), .str (strL "unknown"),
             applyRules (lowerStr (stripWs textRaw)) (.str (strL "other")),
             .str now, .str []⟩ := rfl
  obtain ⟨cat, hcat⟩ := stripOtherCat_applyRules_other (lowerStr (stripWs textRaw))
  have hres : resolvedAmount ⟨.num q, .str (strL "USD"), .str (strL "unknown"),
      applyRules (lowerStr (stripWs textRaw)) (.str (strL "other")), .str now, .str []⟩
      = q := rfl
  have hleb : PRat.leb q (PRat.ofInt 0) = false := by
    simp only [PRat.leb, PRat.ofInt, mul_one, zero_mul, decide_eq_false_iff_not, not_le]
    exact hnum
  have hmul : q.mul (PRat.ofInt 100) = ⟨k * q.den, q.den⟩ := by
    simp only [PRat.mul, PRat.ofInt, PRat.mk.injEq]
    constructor
    · linarith [hq]
    · ring
  have hround : bankersRound (q.mul (PRat.ofInt 100)) = k := by
    rw [hmul]
    exact bankersRound_intMul k q.den hden
  rw [api_log_ok_of db now textRaw emotionRaw _ _ ht hp]
  rw [log_ok_of db now (stripWs textRaw) (emotionOf emotionRaw)
    ⟨.num q, .str (strL "USD"), .str (strL "unknown"),
     applyRules (lowerStr (stripWs textRaw)) (.str (strL "other")), .str now, .str []⟩
    (some (strL "unknown")) none cat (by rw [hres, hleb]) rfl hcat rfl]
  refine ⟨_, _, rfl, ?_, ?_, ?_, _, rfl, ?_⟩
  · simp only [hres, hround]
  · simp only [hres]
  · simp only [hres, hround, PRat.toQ_mk100, PRat.toQ]
    have hdq : (q.den : ℚ) ≠ 0 := by
      exact_mod_cast ne_of_gt hden
    field_simp
    exact_mod_cast by linarith [hq]
  · simp only [hres, hround]

/-- Witness for C6: amount `7.45` (`745 / 100`) is stored as `745` cents
and returned as exactly `7.45`. -/
theorem claim_C6_witness :
    (stripWs (strL "log it") ≠ [] ∧ 0 < (⟨745, 100⟩ : PRat).den ∧
      100 * (⟨745, 100⟩ : PRat).num = 745 * (⟨745, 100⟩ : PRat).den ∧ 0 < (745 : Int)) ∧
    ∃ db2 out,
      api_finance_log ⟨[], 1⟩ (strL "2025-06-15T12:00:00+00:00") (strL "log it") []
          (.jsonObj [(strL "amount", .num ⟨745, 100⟩)])
        = (db2, .ok out) ∧
      out.amount = ⟨745, 100⟩ ∧
      out.amount = ⟨bankersRound ((⟨745, 100⟩ : PRat).mul (PRat.ofInt 100)), 100⟩ ∧
      out.amount.toQ = (⟨745, 100⟩ : PRat).toQ ∧
      ∃ t, db2.rows = ([] : List Txn) ++ [t] ∧ t.amount_cents = 745 :=
  ⟨⟨by decide, by decide, by decide, by decide⟩,
   by
    have h := claim_C6_cents_roundtrip ⟨[], 1⟩ (strL "2025-06-15T12:00:00+00:00")
      (strL "log it") [] 745 ⟨745, 100⟩ (by decide) (by decide) (by decide) (by decide)
    exact h⟩

lemma jget_append_single (m : List (Str × JVal)) (k0 k : Str) (v : JVal) :
    jget (m ++ [(k0, v)]) k = if k0 = k then some v else jget m k := by
  induction m with
  | nil => simp [jget]
  | cons hd tl ih =>
    cases hd with
    | mk k2 w =>
      by_cases hk : k0 = k
      · show (match jget (tl ++ [(k0, v)]) k with
              | some r => some r
              | none => if k2 = k then some w else none) = _
        rw [ih, if_pos hk, if_pos hk]
      · show (match jget (tl ++ [(k0, v)]) k with
              | some r => some r
              | none => if k2 = k then some w else none) = _
        rw [ih, if_neg hk, if_neg hk]
        rfl

lemma dictOfObj_append_iso (m : List (Str × JVal)) (v : JVal) :
    dictOfObj (m ++ [(strL "created_at_iso", v)])
      = { dictOfObj m with created_at_iso := some v } := by
  unfold dictOfObj
  rw [jget_append_single, jget_append_single, jget_append_single,
      jget_append_single, jget_append_single, jget_append_single]
  rw [if_neg (by decide), if_neg (by decide), if_neg (by decide),
      if_neg (by decide), if_pos rfl, if_neg (by decide)]

lemma normalizeParsed_setIso (text now : Str) (d : PDict) (v : JVal) :
    normalizeParsed text now { d with created_at_iso := some v }
      = { normalizeParsed text now d with created_at_iso := orDefault (some v) (.str now) } := by
  cases d
  rfl

lemma parse_iso_shift (text now : Str) (m : List (Str × JVal)) (v : JVal) :
    parse_transaction_input text (.jsonObj (m ++ [(strL "created_at_iso", v)])) now
      = .ok { normalizeParsed text now (dictOfObj m) with
              created_at_iso := orDefault (some v) (.str now) } := by
  show Except.ok (normalizeParsed text now (dictOfObj (m ++ [(strL "created_at_iso", v)]))) = _
  rw [dictOfObj_append_iso, normalizeParsed_setIso]

lemma logFromParsed_iso_irrel (db : Db) (now text : Str) (emotion : Option Str)
    (a c mch cat n i1 i2 : JVal) :
    logFromParsed db now text emotion ⟨a, c, mch, cat, i1, n⟩
      = logFromParsed db now text emotion ⟨a, c, mch, cat, i2, n⟩ := rfl

/-- Claim C8: the stored `created_at` of every ingested transaction is the
current UTC time passed at ingestion, independent of the
`created_at_iso` the extraction service returned: two ingestions at the
same clock time whose extraction outputs differ only in
`created_at_iso` produce identical results, and every successful
ingestion stamps both the response and the stored row with `now`. -/
theorem claim_C8_timestamp (db : Db) (now textRaw emotionRaw : Str)
    (m : List (Str × JVal)) (iso1 iso2 : JVal) :
    api_finance_log db now textRaw emotionRaw
        (.jsonObj (m ++ [(strL "created_at_iso", iso1)]))
      = api_finance_log db now textRaw emotionRaw
        (.jsonObj (m ++ [(strL "created_at_iso", iso2)])) ∧
    (∀ db2 out, api_finance_log db now textRaw emotionRaw
        (.jsonObj (m ++ [(strL "created_at_iso", iso1)])) = (db2, .ok out) →
      out.created_at = now ∧ ∃ t, db2.rows = db.rows ++ [t] ∧ t.created_at = now) := by
  constructor
  · by_cases ht : stripWs textRaw = []
    · unfold api_finance_log
      rw [if_pos ht, if_pos ht]
    · rw [api_log_ok_of db now textRaw emotionRaw _ _ ht (parse_iso_shift _ now m iso1),
          api_log_ok_of db now textRaw emotionRaw _ _ ht (parse_iso_shift _ now m iso2)]
      exact logFromParsed_iso_irrel db now (stripWs textRaw) (emotionOf emotionRaw)
        _ _ _ _ _ _ _
  · intro db2 out h
    obtain ⟨ht, p, hp, hl⟩ := api_log_ok_inv db now textRaw emotionRaw _ db2 out h
    obtain ⟨_, merchant, category, notes, _, _, _, hout, hdb2⟩ :=
      log_ok_inv db now (stripWs textRaw) (emotionOf emotionRaw) p db2 out hl
    refine ⟨by rw [hout], ?_⟩
    exact ⟨_, by rw [hdb2], rfl⟩

/-- Witness for C8: two extraction outputs differing only in
`created_at_iso` (year 2000 vs 1999) give identical results, and the
stored/returned `created_at` is the ingestion-time `now`. -/
theorem claim_C8_witness :
    (api_finance_log ⟨[], 1⟩ (strL "2025-06-15T12:00:00+00:00") (strL "zzz") []
        (.jsonObj ([(strL "amount", .num ⟨5, 1⟩)] ++
          [(strL "created_at_iso", .str (strL "2000-01-01T00:00:00"))]))
      = api_finance_log ⟨[], 1⟩ (strL "2025-06-15T12:00:00+00:00") (strL "zzz") []
        (.jsonObj ([(strL "amount", .num ⟨5, 1⟩)] ++
          [(strL "created_at_iso", .str (strL "1999-01-01T00:00:00"))]))) ∧
    (⟨1, strL "2025-06-15T12:00:00+00:00", ⟨500, 100⟩, strL "USD", some (strL "unknown"),
        strL "other", strL "zzz", none, none⟩ : TxOut).created_at
        = strL "2025-06-15T12:00:00+00:00" ∧
    ∃ t, (⟨[⟨1, strL "default", strL "2025-06-15T12:00:00+00:00", 500, strL "USD",
          some (strL "unknown"), strL "zzz", strL "other", none, none⟩], 2⟩ : Db).rows
        = (⟨[], 1⟩ : Db).rows ++ [t] ∧
      t.created_at = strL "2025-06-15T12:00:00+00:00" := by
  have h := claim_C8_timestamp ⟨[], 1⟩ (strL "2025-06-15T12:00:00+00:00") (strL "zzz") []
    [(strL "amount", .num ⟨5, 1⟩)] (.str (strL "2000-01-01T00:00:00"))
    (.str (strL "1999-01-01T00:00:00"))
  refine ⟨h.1, ?_⟩
  have h2 := h.2 ⟨[⟨1, strL "default", strL "2025-06-15T12:00:00+00:00", 500, strL "USD",
      some (strL "unknown"), strL "zzz", strL "other", none, none⟩], 2⟩
    ⟨1, strL "2025-06-15T12:00:00+00:00", ⟨500, 100⟩, strL "USD", some (strL "unknown"),
      strL "other", strL "zzz", none, none⟩ (by decide)
  exact h2

/-- Counterexample to C1 as stated: when the extraction service returns
the out-of-set category `banana` for a text (`zzz`) on which no keyword
rule fires, ingestion succeeds and both stores and returns the category
`banana`, which is not in the closed set. -/
theorem claim_C1_counterexample :
    okCategory (api_finance_log ⟨[], 1⟩ (strL "2025-06-15T12:00:00+00:00") (strL "zzz") []
        (.jsonObj [(strL "amount", .num ⟨5, 1⟩),
                   (strL "category", .str (strL "banana"))])).2
      = some (strL "banana") ∧
    (∃ t ∈ (api_finance_log ⟨[], 1⟩ (strL "2025-06-15T12:00:00+00:00") (strL "zzz") []
        (.jsonObj [(strL "amount", .num ⟨5, 1⟩),
                   (strL "category", .str (strL "banana"))])).1.rows,
      t.category = strL "banana") ∧
    strL "banana" ∉ closedCategorySet := by
  refine ⟨by decide, by decide, by decide⟩

lemma stripOtherCat_closed : ∀ s ∈ closedCategorySet, stripOtherCat (JVal.str s) = .ok s := by
  decide

lemma ruleTargets_closed : ∀ s ∈ ruleTargetList, s ∈ closedCategorySet := by
  decide

lemma parse_category_eq (text now : Str) (svc : ExtractOutcome) (p : Parsed)
    (hp : parse_transaction_input text svc now = .ok p) :
    ∃ cat0, p.category = applyRules (lowerStr text) cat0 ∧
      (cat0 = .str (strL "other") ∨
       ∃ m, svc = .jsonObj m ∧
         cat0 = orDefault (jget m (strL "category")) (.str (strL "other"))) := by
  cases svc with
  | failure =>
    refine ⟨.str (strL "other"), ?_, Or.inl rfl⟩
    have hpe : p = normalizeParsed text now (fallbackDict text now) := (Except.ok.inj hp).symm
    rw [hpe]
    rfl
  | jsonObj m =>
    refine ⟨orDefault (jget m (strL "category")) (.str (strL "other")), ?_,
      Or.inr ⟨m, rfl, rfl⟩⟩
    have hpe : p = normalizeParsed text now (dictOfObj m) := (Except.ok.inj hp).symm
    rw [hpe]
    rfl
  | jsonOther v => exact absurd hp (by simp [parse_transaction_input])

lemma svcCategorySafe_cases (m : List (Str × JVal))
    (hsafe : svcCategorySafe (.jsonObj m)) :
    orDefault (jget m (strL "category")) (.str (strL "other")) = .str (strL "other") ∨
    ∃ s, orDefault (jget m (strL "category")) (.str (strL "other")) = .str s ∧
      (stripWs s = [] ∨ stripWs s ∈ closedCategorySet) := by
  unfold svcCategorySafe at hsafe
  dsimp only at hsafe
  rcases hj : jget m (strL "category") with _ | v
  · exact Or.inl rfl
  · rw [hj] at hsafe
    dsimp only at hsafe
    rcases hsafe with hfv | ⟨s, hvs, hstrip⟩
    · left
      unfold orDefault
      dsimp only
      rw [hfv]
      rfl
    · by_cases hfv : falsy v = true
      · left
        unfold orDefault
        dsimp only
        rw [hfv]
        rfl
      · right
        rw [Bool.not_eq_true] at hfv
        refine ⟨s, ?_, hstrip⟩
        unfold orDefault
        dsimp only
        rw [hfv]
        simp only [Bool.false_eq_true, if_false]
        exact hvs

lemma stripOtherCat_ok_mem (v : JVal) (category : Str)
    (hv : v = .str (strL "other") ∨
          ∃ s, v = .str s ∧ (stripWs s = [] ∨ stripWs s ∈ closedCategorySet))
    (hc : stripOtherCat v = .ok category) : category ∈ closedCategorySet := by
  rcases hv with hv | ⟨s, hv, hs⟩
  · rw [hv] at hc
    have h2 : stripOtherCat (JVal.str (strL "other")) = .ok (strL "other") := by decide
    rw [h2] at hc
    have : category = strL "other" := (Except.ok.inj hc).symm
    rw [this]
    decide
  · rw [hv] at hc
    unfold stripOtherCat at hc
    by_cases hf : falsy (JVal.str s) = true
    · rw [if_pos hf] at hc
      have : category = strL "other" := (Except.ok.inj hc).symm
      rw [this]
      decide
    · rw [Bool.not_eq_true] at hf
      rw [hf] at hc
      simp only [Bool.false_eq_true, if_false] at hc
      by_cases he : stripWs s = []
      · rw [if_pos he] at hc
        have : category = strL "other" := (Except.ok.inj hc).symm
        rw [this]
        decide
      · rw [if_neg he] at hc
        have hcs : category = stripWs s := (Except.ok.inj hc).symm
        rcases hs with hs | hs
        · exact absurd hs he
        · rw [hcs]
          exact hs

/-- Claim C1 (amended): whenever the extraction outcome is category-safe
(absent/falsy category, or a string category that strips into the closed
set) or a keyword rule fires on the text, every successful ingestion
stores and returns a category from the closed set.  (Without that
hypothesis an out-of-set string from the service leaks through; see the
counterexample.) -/
theorem claim_C1_closed_category (db : Db) (now textRaw emotionRaw : Str)
    (svc : ExtractOutcome)
    (hsafe : svcCategorySafe svc ∨ ruleFires (lowerStr (stripWs textRaw)) = true) :
    ∀ db2 out, api_finance_log db now textRaw emotionRaw svc = (db2, .ok out) →
      out.category ∈ closedCategorySet ∧
      ∀ t ∈ db2.rows, t ∈ db.rows ∨ t.category ∈ closedCategorySet := by
  intro db2 out h
  obtain ⟨ht, p, hp, hl⟩ := api_log_ok_inv db now textRaw emotionRaw svc db2 out h
  obtain ⟨hleb, merchant, category, notes, hm, hc, hn, hout, hdb2⟩ :=
    log_ok_inv db now (stripWs textRaw) (emotionOf emotionRaw) p db2 out hl
  obtain ⟨cat0, hpc, hcat0⟩ := parse_category_eq (stripWs textRaw) now svc p hp
  rw [hpc] at hc
  have hmem : category ∈ closedCategorySet := by
    rcases hsafe with hsafe | hfire
    · rcases applyRules_cases (lowerStr (stripWs textRaw)) cat0 with hid | ⟨s, hs, hrule⟩
      · rw [hid] at hc
        rcases hcat0 with hcat0 | ⟨m, hsvc, hcat0⟩
        · exact stripOtherCat_ok_mem cat0 category (Or.inl hcat0) hc
        · subst hsvc
          rcases svcCategorySafe_cases m hsafe with hshape | ⟨s, hshape, hstrip⟩
          · rw [← hcat0] at hshape
            exact stripOtherCat_ok_mem cat0 category (Or.inl hshape) hc
          · rw [← hcat0] at hshape
            exact stripOtherCat_ok_mem cat0 category (Or.inr ⟨s, hshape, hstrip⟩) hc
      · rw [hrule] at hc
        have hsc := ruleTargets_closed s hs
        rw [stripOtherCat_closed s hsc] at hc
        have : category = s := (Except.ok.inj hc).symm
        rw [this]
        exact hsc
    · obtain ⟨s, hs, hrule⟩ :=
        applyRules_closed_of_fires (lowerStr (stripWs textRaw)) cat0 hfire
      rw [hrule] at hc
      rw [stripOtherCat_closed s hs] at hc
      have : category = s := (Except.ok.inj hc).symm
      rw [this]
      exact hs
  refine ⟨by rw [hout]; exact hmem, ?_⟩
  intro t htm
  rw [hdb2] at htm
  rcases List.mem_append.mp htm with htm | htm
  · exact Or.inl htm
  · right
    have : t = ⟨db.nextId, defaultUser, now,
        bankersRound ((resolvedAmount p).mul (PRat.ofInt 100)),
        upperStr (pyStrJ p.currency), merchant, stripWs textRaw, category,
        emotionOf emotionRaw, notes⟩ := by
      simpa using htm
    rw [this]
    exact hmem

/-- Witness for C1 (amended): a safe outcome (service category `coffee`)
yields the stored/returned category `coffee`, inside the closed set. -/
theorem claim_C1_witness :
    (svcCategorySafe (.jsonObj [(strL "amount", .num ⟨5, 1⟩),
        (strL "category", .str (strL "coffee"))]) ∨
      ruleFires (lowerStr (stripWs (strL "zzz"))) = true) ∧
    ((api_finance_log ⟨[], 1⟩ (strL "2025-06-15T12:00:00+00:00") (strL "zzz") []
        (.jsonObj [(strL "amount", .num ⟨5, 1⟩), (strL "category", .str (strL "coffee"))]))
      = (⟨[⟨1, strL "default", strL "2025-06-15T12:00:00+00:00", 500, strL "USD",
            some (strL "unknown"), strL "zzz", strL "coffee", none, none⟩], 2⟩,
         .ok ⟨1, strL "2025-06-15T12:00:00+00:00", ⟨500, 100⟩, strL "USD",
            some (strL "unknown"), strL "coffee", strL "zzz", none, none⟩)) ∧
    (⟨1, strL "2025-06-15T12:00:00+00:00", ⟨500, 100⟩, strL "USD", some (strL "unknown"),
        strL "coffee", strL "zzz", none, none⟩ : TxOut).category ∈ closedCategorySet := by
  have hsafe : svcCategorySafe (.jsonObj [(strL "amount", .num ⟨5, 1⟩),
      (strL "category", .str (strL "coffee"))]) := by
    unfold svcCategorySafe
    exact Or.inr ⟨strL "coffee", by decide, Or.inr (by decide)⟩
  have h := claim_C1_closed_category ⟨[], 1⟩ (strL "2025-06-15T12:00:00+00:00") (strL "zzz") []
    (.jsonObj [(strL "amount", .num ⟨5, 1⟩), (strL "category", .str (strL "coffee"))])
    (Or.inl hsafe)
    ⟨[⟨1, strL "default", strL "2025-06-15T12:00:00+00:00", 500, strL "USD",
        some (strL "unknown"), strL "zzz", strL "coffee", none, none⟩], 2⟩
    ⟨1, strL "2025-06-15T12:00:00+00:00", ⟨500, 100⟩, strL "USD", some (strL "unknown"),
        strL "coffee", strL "zzz", none, none⟩ (by decide)
  exact ⟨Or.inl hsafe, by decide, h.1⟩

/-- Counterexample to C2 as stated: when the external call succeeds but
returns JSON that is not an object (here the number `3`), the
field-normalization block of `_parse_transaction_input` raises a
`TypeError` instead of returning a normalized record. -/
theorem claim_C2_counterexample :
    parse_transaction_input (strL "hi") (.jsonOther (.num ⟨3, 1⟩))
        (strL "2025-06-15T12:00:00+00:00")
      = .error .typeErr := by
  decide

/-- Claim C2 (amended): `_parse_transaction_input` never raises when the
external-service outcome is a failure (network error or malformed JSON,
both caught by its except branch) or a JSON object, and then always
returns a record containing all six fields, with the fixed defaults
(amount `0.0`, currency `USD`, category `other` — unless a keyword rule
overrides it — notes `""`, `created_at_iso = now`) filling any missing
field; valid JSON that is not an object makes the field-normalization
block raise a `TypeError` (see the counterexample). -/
theorem claim_C2_parse_total (text now : Str) (svc : ExtractOutcome)
    (hs : svcObjOrFailure svc) :
    ∃ p, parse_transaction_input text svc now = .ok p ∧
      (∀ m, svc = .jsonObj m →
        (jget m (strL "amount") = none → p.amount = .num (PRat.ofInt 0)) ∧
        (jget m (strL "currency") = none → p.currency = .str (strL "USD")) ∧
        (jget m (strL "created_at_iso") = none → p.created_at_iso = .str now) ∧
        (jget m (strL "notes") = none → p.notes = .str []) ∧
        (jget m (strL "category") = none → ruleFires (lowerStr text) = false →
          p.category = .str (strL "other"))) ∧
      (svc = .failure →
        p.amount = .num (orZero (fallbackAmount text)) ∧
        p.currency = .str (strL "USD") ∧ p.created_at_iso = .str now ∧
        p.notes = .str [] ∧
        (ruleFires (lowerStr text) = false → p.category = .str (strL "other"))) := by
  cases svc with
  | jsonOther v => exact absurd hs (by simp [svcObjOrFailure])
  | failure =>
    refine ⟨normalizeParsed text now (fallbackDict text now), rfl, ?_, ?_⟩
    · intro m hm
      cases hm
    · intro _
      refine ⟨rfl, rfl, ?_, rfl, ?_⟩
      · show orDefault (some (.str now)) (.str now) = .str now
        unfold orDefault
        dsimp only
        split <;> rfl
      · intro hnf
        show applyRules (lowerStr text)
          (orDefault (some (.str (strL "other"))) (.str (strL "other"))) = _
        rw [applyRules_id_of_not_fires _ _ hnf]
        rfl
  | jsonObj m =>
    refine ⟨normalizeParsed text now (dictOfObj m), rfl, ?_, ?_⟩
    · intro m2 hm2
      have hmm : m2 = m := (ExtractOutcome.jsonObj.inj hm2).symm
      subst hmm
      refine ⟨?_, ?_, ?_, ?_, ?_⟩
      · intro ha
        show ((dictOfObj m2).amount.getD (JVal.num (PRat.ofInt 0))) = _
        show ((jget m2 (strL "amount")).getD (JVal.num (PRat.ofInt 0))) = _
        rw [ha]
        rfl
      · intro hno
        show orDefault (jget m2 (strL "currency")) (.str (strL "USD")) = _
        rw [hno]
        rfl
      · intro hno
        show orDefault (jget m2 (strL "created_at_iso")) (.str now) = _
        rw [hno]
        rfl
      · intro hn
        show ((jget m2 (strL "notes")).getD (JVal.str [])) = _
        rw [hn]
        rfl
      · intro hno hnf
        show applyRules (lowerStr text)
          (orDefault (jget m2 (strL "category")) (.str (strL "other"))) = _
        rw [applyRules_id_of_not_fires _ _ hnf, hno]
        rfl
    · intro hf
      cases hf

/-- Witness for C2 (amended): the empty JSON object yields the fully
defaulted record without raising. -/
theorem claim_C2_witness :
    (svcObjOrFailure (.jsonObj []) ∧
      (∃ p, parse_transaction_input (strL "hi") (.jsonObj [])
            (strL "2025-06-15T12:00:00+00:00") = .ok p ∧
        (∀ m, (ExtractOutcome.jsonObj [] : ExtractOutcome) = .jsonObj m →
          (jget m (strL "amount") = none → p.amount = .num (PRat.ofInt 0)) ∧
          (jget m (strL "currency") = none → p.currency = .str (strL "USD")) ∧
          (jget m (strL "created_at_iso") = none →
            p.created_at_iso = .str (strL "2025-06-15T12:00:00+00:00")) ∧
          (jget m (strL "notes") = none → p.notes = .str []) ∧
          (jget m (strL "category") = none →
            ruleFires (lowerStr (strL "hi")) = false →
            p.category = .str (strL "other"))) ∧
        ((ExtractOutcome.jsonObj [] : ExtractOutcome) = .failure →
          p.amount = .num (orZero (fallbackAmount (strL "hi"))) ∧
          p.currency = .str (strL "USD") ∧
          p.created_at_iso = .str (strL "2025-06-15T12:00:00+00:00") ∧
          p.notes = .str [] ∧
          (ruleFires (lowerStr (strL "hi")) = false →
            p.category = .str (strL "other"))))) ∧
    parse_transaction_input (strL "hi") (.jsonObj []) (strL "2025-06-15T12:00:00+00:00")
      = .ok ⟨.num (PRat.ofInt 0), .str (strL "USD"), .str (strL "unknown"),
             .str (strL "other"), .str (strL "2025-06-15T12:00:00+00:00"), .str []⟩ :=
  ⟨⟨by trivial,
    claim_C2_parse_total (strL "hi") (strL "2025-06-15T12:00:00+00:00") (.jsonObj [])
      (by trivial)⟩,
   by decide⟩

lemma splitWsAux_skip_space (l : Str) : splitWsAux (' ' :: l) [] = splitWsAux l [] := rfl

lemma splitWsAux_token (d : Str) (rest : Str) (acc : Str)
    (hne : d ≠ [] ∨ acc ≠ [])
    (hd : ∀ c ∈ d, isSpaceB c = false) :
    splitWsAux (d ++ ' ' :: rest) acc = (acc.reverse ++ d) :: splitWsAux rest [] := by
  induction d generalizing acc with
  | nil =>
    rcases hne with h | h
    · exact absurd rfl h
    · show splitWsAux (' ' :: rest) acc = _
      unfold splitWsAux
      rw [show isSpaceB ' ' = true from rfl]
      simp only [if_true]
      have hae : acc.isEmpty = false := by
        cases acc
        · exact absurd rfl h
        · rfl
      rw [hae]
      simp only [Bool.false_eq_true, if_false, List.append_nil]
      rw [← splitWsAux.eq_def]
  | cons c d ih =>
    show splitWsAux (c :: (d ++ ' ' :: rest)) acc = _
    unfold splitWsAux
    rw [hd c (by simp)]
    simp only [Bool.false_eq_true, if_false]
    rw [ih (c :: acc) (Or.inr (by simp)) (fun x hx => hd x (by simp [hx]))]
    rw [← splitWsAux.eq_def]
    simp

lemma toQ_orZero (q : PRat) : (orZero q).toQ = q.toQ := by
  unfold orZero
  by_cases h : PRat.eqb q (PRat.ofInt 0) = true
  · rw [if_pos h]
    have hz : q.num = 0 := by
      simpa [PRat.eqb, PRat.ofInt] using h
    simp [PRat.toQ, PRat.ofInt, hz]
  · rw [Bool.not_eq_true] at h
    rw [h]
    simp

/-- Counterexample to C7 as stated: on `3$4 x` the code (which replaces
every `$` by a space before tokenizing) extracts `3`, while the claimed
rule — the first whitespace-delimited token of the raw text that parses
after stripping a leading currency symbol — extracts nothing (amount
`0`): the two disagree in value. -/
theorem claim_C7_counterexample :
    fallbackAmount (strL "3$4 x") = ⟨3, 1⟩ ∧
    specFallbackAmount (strL "3$4 x") = PRat.ofInt 0 ∧
    (⟨3, 1⟩ : PRat).toQ ≠ (PRat.ofInt 0).toQ := by
  refine ⟨by decide, by decide, ?_⟩
  norm_num [PRat.toQ, PRat.ofInt]

/-- Claim C7 (amended): the fallback replaces every `$` by a space, splits
on whitespace and takes the first `float()`-parseable token; hence for
every raw input with a clear leading numeric token — `'$'` immediately
followed by a parseable token and a space — the extracted amount is
exactly that number, as in `$7 latte` ↦ `7.0`.  (When a `$` occurs in the
middle of a token the code differs from the spec wording; see the
counterexample.) -/
theorem claim_C7_fallback_amount (d rest now : Str) (q : PRat)
    (hq : parseFloatStr d = some q)
    (hd : ∀ c ∈ d, isSpaceB c = false ∧ c ≠ '$')
    (hne : d ≠ []) :
    fallbackAmount ('$' :: d ++ ' ' :: rest) = q ∧
    ∃ p, parse_transaction_input ('$' :: d ++ ' ' :: rest) .failure now = .ok p ∧
      p.amount = .num (orZero q) ∧ (orZero q).toQ = q.toQ := by
  have hfb : fallbackAmount ('$' :: d ++ ' ' :: rest) = q := by
    unfold fallbackAmount
    have hmap : (('$' :: d ++ ' ' :: rest).map (fun c => if c = '$' then ' ' else c))
        = ' ' :: d ++ ' ' :: (rest.map (fun c => if c = '$' then ' ' else c)) := by
      simp only [List.map_cons, List.map_append, if_pos rfl]
      have hdm : d.map (fun c => if c = '$' then ' ' else c) = d := by
        rw [List.map_congr_left (fun c hc => if_neg (hd c hc).2)]
        simp
      rw [hdm]
      rfl
    rw [hmap]
    unfold splitWs
    rw [show (' ' :: d ++ ' ' :: (rest.map (fun c => if c = '$' then ' ' else c)))
        = ' ' :: (d ++ ' ' :: (rest.map (fun c => if c = '$' then ' ' else c))) from rfl]
    rw [splitWsAux_skip_space,
        splitWsAux_token d _ [] (Or.inl hne) (fun c hc => (hd c hc).1)]
    simp only [List.reverse_nil, List.nil_append]
    unfold firstNumTok
    rw [hq]
  refine ⟨hfb, normalizeParsed ('$' :: d ++ ' ' :: rest) now
    (fallbackDict ('$' :: d ++ ' ' :: rest) now), rfl, ?_, toQ_orZero q⟩
  show ((fallbackDict ('$' :: d ++ ' ' :: rest) now).amount.getD
    (JVal.num (PRat.ofInt 0))) = _
  show (JVal.num (orZero (fallbackAmount ('$' :: d ++ ' ' :: rest)))) = _
  rw [hfb]

/-- Witness for C7 (amended): `$7 latte` extracts exactly `7`. -/
theorem claim_C7_witness :
    (parseFloatStr (strL "7") = some ⟨7, 1⟩ ∧
     (∀ c ∈ strL "7", isSpaceB c = false ∧ c ≠ '$') ∧ strL "7" ≠ []) ∧
    fallbackAmount ('$' :: strL "7" ++ ' ' :: strL "latte") = ⟨7, 1⟩ ∧
    ∃ p, parse_transaction_input ('$' :: strL "7" ++ ' ' :: strL "latte") .failure
        (strL "2025-06-15T12:00:00+00:00") = .ok p ∧
      p.amount = .num (orZero ⟨7, 1⟩) ∧ (orZero (⟨7, 1⟩ : PRat)).toQ = (⟨7, 1⟩ : PRat).toQ :=
  ⟨⟨by decide, by decide, by decide⟩,
   claim_C7_fallback_amount (strL "7") (strL "latte") (strL "2025-06-15T12:00:00+00:00")
     ⟨7, 1⟩ (by decide) (by decide) (by decide)⟩

lemma aget_upsertAdd (mp : List (Str × Int)) (k : Str) (v : Int) (k2 : Str) :
    aget (upsertAdd mp k v) k2
      = if k2 = k then some (getCents mp k2 + v) else aget mp k2 := by
  induction mp with
  | nil =>
    by_cases h : k2 = k
    · subst h
      show (if k2 = k2 then some v else none) = _
      rw [if_pos rfl, if_pos rfl]
      simp [getCents, aget]
    · show (if k = k2 then some v else none) = _
      rw [if_neg (fun hh => h hh.symm), if_neg h]
      rfl
  | cons hd tl ih =>
    cases hd with
    | mk k3 v3 =>
      show aget (if k3 = k then (k3, v3 + v) :: tl else (k3, v3) :: upsertAdd tl k v) k2 = _
      by_cases h3 : k3 = k
      · rw [if_pos h3]
        show (if k3 = k2 then some (v3 + v) else aget tl k2) = _
        by_cases h2 : k2 = k
        · have h32 : k3 = k2 := by rw [h3, h2]
          rw [if_pos h32, if_pos h2]
          show _ = some ((aget ((k3, v3) :: tl) k2).getD 0 + v)
          show _ = some ((if k3 = k2 then some v3 else aget tl k2).getD 0 + v)
          rw [if_pos h32]
          rfl
        · have h32 : ¬ k3 = k2 := fun hh => h2 (hh.symm.trans h3)
          rw [if_neg h32, if_neg h2]
          show _ = (if k3 = k2 then some v3 else aget tl k2)
          rw [if_neg h32]
      · rw [if_neg h3]
        show (if k3 = k2 then some v3 else aget (upsertAdd tl k v) k2) = _
        by_cases h32 : k3 = k2
        · rw [if_pos h32]
          have h2 : ¬ k2 = k := fun hh => h3 (h32.trans hh)
          rw [if_neg h2]
          show _ = (if k3 = k2 then some v3 else aget tl k2)
          rw [if_pos h32]
        · rw [if_neg h32, ih]
          by_cases h2 : k2 = k
          · rw [if_pos h2, if_pos h2]
            have hg : getCents ((k3, v3) :: tl) k2 = getCents tl k2 := by
              show ((if k3 = k2 then some v3 else aget tl k2).getD 0 : Int) = _
              rw [if_neg h32]
              rfl
            rw [hg]
          · rw [if_neg h2, if_neg h2]
            show aget tl k2 = (if k3 = k2 then some v3 else aget tl k2)
            rw [if_neg h32]

lemma getCents_upsertAdd (mp : List (Str × Int)) (k : Str) (v : Int) (k2 : Str) :
    getCents (upsertAdd mp k v) k2
      = if k2 = k then getCents mp k2 + v else getCents mp k2 := by
  unfold getCents
  rw [aget_upsertAdd]
  by_cases h : k2 = k
  · rw [if_pos h, if_pos h]
    rfl
  · rw [if_neg h, if_neg h]

lemma spent_fold_init (rows : List Txn) (c : Str) (i : Int) :
    rows.foldl (fun a r => if catOf r = c then a + r.amount_cents else a) i
      = i + spentCents rows c := by
  induction rows generalizing i with
  | nil => simp [spentCents]
  | cons r rs ih =>
    show List.foldl _ (if catOf r = c then i + r.amount_cents else i) rs = _
    rw [ih]
    have h2 : spentCents (r :: rs) c
        = (if catOf r = c then 0 + r.amount_cents else 0) + spentCents rs c := by
      show List.foldl _ (if catOf r = c then 0 + r.amount_cents else 0) rs = _
      rw [ih]
    rw [h2]
    split <;> omega

lemma total_fold_init (rows : List Txn) (i : Int) :
    rows.foldl (fun a r => a + r.amount_cents) i = i + totalCents rows := by
  induction rows generalizing i with
  | nil => simp [totalCents]
  | cons r rs ih =>
    show List.foldl _ (i + r.amount_cents) rs = _
    rw [ih]
    have h2 : totalCents (r :: rs) = (0 + r.amount_cents) + totalCents rs := by
      show List.foldl _ (0 + r.amount_cents) rs = _
      rw [ih]
    rw [h2]
    omega

lemma totalCents_append_one (rows : List Txn) (t : Txn) :
    totalCents (rows ++ [t]) = totalCents rows + t.amount_cents := by
  show List.foldl _ 0 (rows ++ [t]) = _
  rw [List.foldl_append]
  rfl

lemma getCents_byCat_fold (rows : List Txn) (acc : List (Str × Int)) (c : Str) :
    getCents (rows.foldl (fun a r => upsertAdd a (catOf r) r.amount_cents) acc) c
      = getCents acc c + spentCents rows c := by
  induction rows generalizing acc with
  | nil => simp [spentCents]
  | cons r rs ih =>
    show getCents (rs.foldl _ (upsertAdd acc (catOf r) r.amount_cents)) c = _
    rw [ih, getCents_upsertAdd]
    have h2 : spentCents (r :: rs) c
        = (if catOf r = c then 0 + r.amount_cents else 0) + spentCents rs c := by
      show List.foldl _ (if catOf r = c then 0 + r.amount_cents else 0) rs = _
      rw [spent_fold_init]
    rw [h2]
    by_cases hc : c = catOf r
    · rw [if_pos hc, if_pos hc.symm]
      omega
    · rw [if_neg hc, if_neg (fun hh => hc hh.symm)]
      omega

lemma getCents_byCatCents (rows : List Txn) (c : Str) :
    getCents (byCatCents rows) c = spentCents rows c := by
  unfold byCatCents
  rw [getCents_byCat_fold]
  simp [getCents, aget]

lemma aget_map_val {α β : Type} (l : List (Str × α)) (f : Str → α → β) (k : Str) :
    aget (l.map (fun p => (p.1, f p.1 p.2))) k = (aget l k).map (f k) := by
  induction l with
  | nil => rfl
  | cons hd tl ih =>
    cases hd with
    | mk k2 v2 =>
      by_cases h : k2 = k
      · subst h
        simp [aget]
      · simp [aget, h, ih]

lemma budget_den1 : ∀ p ∈ MONTHLY_BUDGET_BY_CATEGORY, p.2.den = 1 := by decide

lemma budget_lookup : ∀ p ∈ MONTHLY_BUDGET_BY_CATEGORY,
    aget MONTHLY_BUDGET_BY_CATEGORY p.1 = some p.2 := by decide

lemma budgetTotal_den1 : budgetTotalPR.den = 1 := by decide

lemma toQ_zero : (PRat.ofInt 0).toQ = 0 := by
  simp [PRat.toQ, PRat.ofInt]

lemma diff_entry_toQ (rows : List Txn) (b : PRat) (hb : b.den = 1) (c : Str) :
    (round2 (b.sub (getPR ((byCatCents rows).map
        (fun p => (p.1, (⟨p.2, 100⟩ : PRat)))) c))).toQ
      = b.toQ - (spentCents rows c : ℚ) / 100 := by
  have hmap := aget_map_val (byCatCents rows) (fun _ v => (⟨v, 100⟩ : PRat)) c
  unfold getPR
  rw [hmap]
  rcases hag : aget (byCatCents rows) c with _ | v
  · have hz : spentCents rows c = 0 := by
      have hbc := getCents_byCatCents rows c
      unfold getCents at hbc
      rw [hag] at hbc
      exact hbc.symm
    simp only [Option.map_none', Option.getD_none]
    have hden : (b.sub (PRat.ofInt 0)).den = 1 := by
      simp [PRat.sub, PRat.ofInt, hb]
    rw [toQ_round2_den1 _ hden,
        PRat.toQ_sub b (PRat.ofInt 0) (by rw [hb]; norm_num) (by simp [PRat.ofInt]),
        toQ_zero, hz]
    simp
  · have hv : spentCents rows c = v := by
      have hbc := getCents_byCatCents rows c
      unfold getCents at hbc
      rw [hag] at hbc
      exact hbc.symm
    simp only [Option.map_some', Option.getD_some]
    have hden : (b.sub ⟨v, 100⟩).den = 100 := by
      simp [PRat.sub, hb]
    rw [toQ_round2_den100 _ hden,
        PRat.toQ_sub b ⟨v, 100⟩ (by rw [hb]; norm_num) (by norm_num),
        PRat.toQ_mk100, hv]

lemma ou_toQ (n : Int) :
    (round2 (budgetTotalPR.sub ⟨n, 100⟩)).toQ = budgetTotalPR.toQ - (n : ℚ) / 100 := by
  have hden : (budgetTotalPR.sub ⟨n, 100⟩).den = 100 := by
    simp [PRat.sub, budgetTotal_den1]
  rw [toQ_round2_den100 _ hden,
      PRat.toQ_sub _ _ (by rw [budgetTotal_den1]; norm_num) (by norm_num),
      PRat.toQ_mk100]

lemma monthly_nonempty_fields (db : Db) (y m : Nat) (r0 : Txn) (rs : List Txn)
    (hrw : monthRows db y m = r0 :: rs) :
    sget (api_finance_summary_monthly db y m) (strL "total_spent")
      = some (.q ⟨totalCents (r0 :: rs), 100⟩) ∧
    sget (api_finance_summary_monthly db y m) (strL "over_under_total")
      = some (.q (round2 (budgetTotalPR.sub ⟨totalCents (r0 :: rs), 100⟩))) ∧
    sget (api_finance_summary_monthly db y m) (strL "diff_by_category")
      = some (.ratMap (MONTHLY_BUDGET_BY_CATEGORY.map (fun p => (p.1, round2 (p.2.sub
          (getPR ((byCatCents (r0 :: rs)).map
            (fun q2 => (q2.1, (⟨q2.2, 100⟩ : PRat)))) p.1)))))) := by
  unfold api_finance_summary_monthly
  dsimp only
  rw [hrw]
  exact ⟨rfl, rfl, rfl⟩

lemma monthly_empty_fields (db : Db) (y m : Nat)
    (hrw : monthRows db y m = []) :
    sget (api_finance_summary_monthly db y m) (strL "total_spent")
      = some (.q (PRat.ofInt 0)) ∧
    sget (api_finance_summary_monthly db y m) (strL "by_category") = some (.ratMap []) ∧
    sget (api_finance_summary_monthly db y m) (strL "over_under_total")
      = some (.q budgetTotalPR) ∧
    sget (api_finance_summary_monthly db y m) (strL "diff_by_category")
      = some (.ratMap []) ∧
    sget (api_finance_summary_monthly db y m) (strL "insight")
      = some (.s (strL "No spending logged for this month yet.")) := by
  unfold api_finance_summary_monthly
  dsimp only
  rw [hrw]
  exact ⟨rfl, rfl, rfl, rfl, rfl⟩

lemma totalSpentQ_eq (db : Db) (y m : Nat) :
    totalSpentQ db y m = (totalCents (monthRows db y m) : ℚ) / 100 := by
  rcases hrw : monthRows db y m with _ | ⟨r0, rs⟩
  · unfold totalSpentQ
    rw [(monthly_empty_fields db y m hrw).1]
    simp [toQ_zero, totalCents]
  · unfold totalSpentQ
    rw [(monthly_nonempty_fields db y m r0 rs hrw).1]
    dsimp only
    rw [PRat.toQ_mk100]

lemma overUnderQ_eq (db : Db) (y m : Nat) :
    overUnderQ db y m = budgetTotalPR.toQ - (totalCents (monthRows db y m) : ℚ) / 100 := by
  rcases hrw : monthRows db y m with _ | ⟨r0, rs⟩
  · unfold overUnderQ
    rw [(monthly_empty_fields db y m hrw).2.2.1]
    simp [totalCents]
  · unfold overUnderQ
    rw [(monthly_nonempty_fields db y m r0 rs hrw).2.1]
    dsimp only
    rw [ou_toQ]

/-- Claim C4: for every non-empty monthly window, `diff_by_category[c]`
equals the configured monthly limit of `c` minus the actual spend in `c`,
for each configured category, and `over_under_total` equals the sum of
the configured limits minus the total spent. -/
theorem claim_C4_monthly_diff (db : Db) (y m : Nat) (hne : monthRows db y m ≠ []) :
    (∀ p ∈ MONTHLY_BUDGET_BY_CATEGORY,
      ∃ dm v, sget (api_finance_summary_monthly db y m) (strL "diff_by_category")
          = some (.ratMap dm) ∧
        aget dm p.1 = some v ∧
        v.toQ = p.2.toQ - (spentCents (monthRows db y m) p.1 : ℚ) / 100) ∧
    (∃ ou, sget (api_finance_summary_monthly db y m) (strL "over_under_total")
        = some (.q ou) ∧
      ou.toQ = budgetTotalPR.toQ - (totalCents (monthRows db y m) : ℚ) / 100) := by
  rcases hrw : monthRows db y m with _ | ⟨r0, rs⟩
  · exact absurd hrw hne
  · obtain ⟨htot, hou, hdiff⟩ := monthly_nonempty_fields db y m r0 rs hrw
    constructor
    · intro p hp
      refine ⟨_, round2 (p.2.sub (getPR ((byCatCents (r0 :: rs)).map
          (fun q2 => (q2.1, (⟨q2.2, 100⟩ : PRat)))) p.1)), hdiff, ?_, ?_⟩
      · rw [aget_map_val MONTHLY_BUDGET_BY_CATEGORY
          (fun c b => round2 (b.sub (getPR ((byCatCents (r0 :: rs)).map
            (fun q2 => (q2.1, (⟨q2.2, 100⟩ : PRat)))) c))) p.1]
        rw [budget_lookup p hp]
        rfl
      · exact diff_entry_toQ (r0 :: rs) p.2 (budget_den1 p hp) p.1
    · exact ⟨_, hou, ou_toQ _⟩

/-- Witness for C4: three `food` transactions of `$15` each in June 2025
against the `$300` food budget give food diff `300 − 4500/100 = 255` and
`over_under_total = 2135 − 45 = 2090`. -/
theorem claim_C4_witness :
    (monthRows ⟨[⟨1, strL "default", strL "2025-06-05T10:00:00", 1500, strL "USD", none,
          strL "x", strL "food", none, none⟩,
        ⟨2, strL "default", strL "2025-06-06T10:00:00", 1500, strL "USD", none,
          strL "x", strL "food", none, none⟩,
        ⟨3, strL "default", strL "2025-06-07T10:00:00", 1500, strL "USD", none,
          strL "x", strL "food", none, none⟩], 4⟩ 2025 6 ≠ [] ∧
      (strL "food", PRat.ofInt 300) ∈ MONTHLY_BUDGET_BY_CATEGORY) ∧
    (∃ dm v, sget (api_finance_summary_monthly ⟨[⟨1, strL "default",
          strL "2025-06-05T10:00:00", 1500, strL "USD", none, strL "x", strL "food",
          none, none⟩,
        ⟨2, strL "default", strL "2025-06-06T10:00:00", 1500, strL "USD", none,
          strL "x", strL "food", none, none⟩,
        ⟨3, strL "default", strL "2025-06-07T10:00:00", 1500, strL "USD", none,
          strL "x", strL "food", none, none⟩], 4⟩ 2025 6) (strL "diff_by_category")
        = some (.ratMap dm) ∧
      aget dm (strL "food") = some v ∧
      v.toQ = (PRat.ofInt 300).toQ
        - (spentCents (monthRows ⟨[⟨1, strL "default", strL "2025-06-05T10:00:00", 1500,
            strL "USD", none, strL "x", strL "food", none, none⟩,
          ⟨2, strL "default", strL "2025-06-06T10:00:00", 1500, strL "USD", none,
            strL "x", strL "food", none, none⟩,
          ⟨3, strL "default", strL "2025-06-07T10:00:00", 1500, strL "USD", none,
            strL "x", strL "food", none, none⟩], 4⟩ 2025 6) (strL "food") : ℚ) / 100) ∧
    spentCents (monthRows ⟨[⟨1, strL "default", strL "2025-06-05T10:00:00", 1500,
        strL "USD", none, strL "x", strL "food", none, none⟩,
      ⟨2, strL "default", strL "2025-06-06T10:00:00", 1500, strL "USD", none,
        strL "x", strL "food", none, none⟩,
      ⟨3, strL "default", strL "2025-06-07T10:00:00", 1500, strL "USD", none,
        strL "x", strL "food", none, none⟩], 4⟩ 2025 6) (strL "food") = 4500 ∧
    (PRat.ofInt 300).toQ - ((4500 : Int) : ℚ) / 100 = 255 := by
  refine ⟨⟨by decide, by decide⟩, ?_, by decide, ?_⟩
  · exact (claim_C4_monthly_diff _ 2025 6 (by decide)).1 (strL "food", PRat.ofInt 300)
      (by decide)
  · norm_num [PRat.toQ, PRat.ofInt]

lemma keysOf_monthly (db : Db) (y m : Nat) :
    keysOf (api_finance_summary_monthly db y m)
      = [strL "period", strL "year", strL "month", strL "from_date", strL "to_date",
         strL "total_spent", strL "currency", strL "by_category",
         strL "budget_by_category", strL "diff_by_category", strL "budget_total",
         strL "over_under_total", strL "transaction_count", strL "insight"] := by
  unfold api_finance_summary_monthly
  dsimp only
  cases hrw : monthRows db y m <;> rfl

lemma keysOf_daily (db : Db) (y m d : Nat) :
    keysOf (api_finance_summary_daily db y m d)
      = [strL "period", strL "from_date", strL "to_date", strL "total_spent",
         strL "currency", strL "by_category", strL "coffee_spent",
         strL "transaction_count", strL "insight"] := by
  unfold api_finance_summary_daily
  dsimp only
  cases hrw : dayRows db y m d <;> rfl

lemma daily_empty_fields (db : Db) (y m d : Nat) (hrw : dayRows db y m d = []) :
    sget (api_finance_summary_daily db y m d) (strL "total_spent")
      = some (.q (PRat.ofInt 0)) ∧
    sget (api_finance_summary_daily db y m d) (strL "by_category") = some (.ratMap []) ∧
    sget (api_finance_summary_daily db y m d) (strL "insight")
      = some (.s (strL "No spending logged yet. Try adding one thing, even if it" ++
          [sqc] ++ strL "s tiny.")) := by
  unfold api_finance_summary_daily
  dsimp only
  rw [hrw]
  exact ⟨rfl, rfl, rfl⟩

/-- Claim C5: a window with zero transactions yields `total_spent = 0.0`,
an empty per-category map and the fixed no-spending insight, and both the
daily and the monthly summary have the same top-level keys as any other
window (empty or not). -/
theorem claim_C5_empty_window (dbM dbD : Db) (y m yd md dd : Nat)
    (hm : monthRows dbM y m = []) (hd : dayRows dbD yd md dd = []) :
    (sget (api_finance_summary_monthly dbM y m) (strL "total_spent")
        = some (.q (PRat.ofInt 0)) ∧
     sget (api_finance_summary_monthly dbM y m) (strL "by_category")
        = some (.ratMap []) ∧
     sget (api_finance_summary_monthly dbM y m) (strL "insight")
        = some (.s (strL "No spending logged for this month yet."))) ∧
    (sget (api_finance_summary_daily dbD yd md dd) (strL "total_spent")
        = some (.q (PRat.ofInt 0)) ∧
     sget (api_finance_summary_daily dbD yd md dd) (strL "by_category")
        = some (.ratMap []) ∧
     sget (api_finance_summary_daily dbD yd md dd) (strL "insight")
        = some (.s (strL "No spending logged yet. Try adding one thing, even if it" ++
            [sqc] ++ strL "s tiny."))) ∧
    (∀ db2 y2 m2, keysOf (api_finance_summary_monthly dbM y m)
        = keysOf (api_finance_summary_monthly db2 y2 m2)) ∧
    (∀ db2 y2 m2 d2, keysOf (api_finance_summary_daily dbD yd md dd)
        = keysOf (api_finance_summary_daily db2 y2 m2 d2)) := by
  obtain ⟨hm1, hm2, _, _, hm5⟩ := monthly_empty_fields dbM y m hm
  obtain ⟨hd1, hd2, hd3⟩ := daily_empty_fields dbD yd md dd hd
  refine ⟨⟨hm1, hm2, hm5⟩, ⟨hd1, hd2, hd3⟩, ?_, ?_⟩
  · intro db2 y2 m2
    rw [keysOf_monthly, keysOf_monthly]
  · intro db2 y2 m2 d2
    rw [keysOf_daily, keysOf_daily]

/-- Witness for C5: the empty store over June 2025 and 2025-06-15. -/
theorem claim_C5_witness :
    (monthRows ⟨[], 1⟩ 2025 6 = [] ∧ dayRows ⟨[], 1⟩ 2025 6 15 = []) ∧
    (sget (api_finance_summary_monthly ⟨[], 1⟩ 2025 6) (strL "total_spent")
        = some (.q (PRat.ofInt 0)) ∧
     sget (api_finance_summary_monthly ⟨[], 1⟩ 2025 6) (strL "by_category")
        = some (.ratMap []) ∧
     sget (api_finance_summary_monthly ⟨[], 1⟩ 2025 6) (strL "insight")
        = some (.s (strL "No spending logged for this month yet."))) ∧
    (sget (api_finance_summary_daily ⟨[], 1⟩ 2025 6 15) (strL "total_spent")
        = some (.q (PRat.ofInt 0)) ∧
     sget (api_finance_summary_daily ⟨[], 1⟩ 2025 6 15) (strL "by_category")
        = some (.ratMap []) ∧
     sget (api_finance_summary_daily ⟨[], 1⟩ 2025 6 15) (strL "insight")
        = some (.s (strL "No spending logged yet. Try adding one thing, even if it" ++
            [sqc] ++ strL "s tiny."))) ∧
    (∀ db2 y2 m2, keysOf (api_finance_summary_monthly ⟨[], 1⟩ 2025 6)
        = keysOf (api_finance_summary_monthly db2 y2 m2)) ∧
    (∀ db2 y2 m2 d2, keysOf (api_finance_summary_daily ⟨[], 1⟩ 2025 6 15)
        = keysOf (api_finance_summary_daily db2 y2 m2 d2)) :=
  ⟨⟨by decide, by decide⟩,
   claim_C5_empty_window ⟨[], 1⟩ ⟨[], 1⟩ 2025 6 2025 6 15 (by decide) (by decide)⟩

lemma monthRows_append (db : Db) (y m : Nat) (t : Txn)
    (h1 : t.user_id = defaultUser)
    (h2 : strLeB (monthStartIso y m) t.created_at = true)
    (h3 : strLtB t.created_at (monthStartIso (nextYM y m).1 (nextYM y m).2) = true) :
    monthRows ⟨db.rows ++ [t], db.nextId⟩ y m = monthRows db y m ++ [t] := by
  unfold monthRows
  dsimp only
  rw [List.filter_append]
  congr 1
  simp [h1, h2, h3]

/-- Claim C10: the static budget table has no `shopping`/`bills` entry, so
`diff_by_category` never contains those keys, while spending stored under
those categories still counts into `total_spent` and still decreases
`over_under_total`. -/
theorem claim_C10_unbudgeted_categories :
    (aget MONTHLY_BUDGET_BY_CATEGORY (strL "shopping") = none ∧
     aget MONTHLY_BUDGET_BY_CATEGORY (strL "bills") = none) ∧
    (∀ db y m dm, sget (api_finance_summary_monthly db y m) (strL "diff_by_category")
        = some (.ratMap dm) →
      aget dm (strL "shopping") = none ∧ aget dm (strL "bills") = none) ∧
    (∀ db y m (t : Txn), t.user_id = defaultUser →
      strLeB (monthStartIso y m) t.created_at = true →
      strLtB t.created_at (monthStartIso (nextYM y m).1 (nextYM y m).2) = true →
      (catOf t = strL "shopping" ∨ catOf t = strL "bills") →
      totalSpentQ ⟨db.rows ++ [t], db.nextId⟩ y m
          = totalSpentQ db y m + (t.amount_cents : ℚ) / 100 ∧
      overUnderQ ⟨db.rows ++ [t], db.nextId⟩ y m
          = overUnderQ db y m - (t.amount_cents : ℚ) / 100) := by
  refine ⟨⟨by decide, by decide⟩, ?_, ?_⟩
  · intro db y m dm hdm
    rcases hrw : monthRows db y m with _ | ⟨r0, rs⟩
    · have he := (monthly_empty_fields db y m hrw).2.2.2.1
      rw [he] at hdm
      have : dm = [] := by
        have := Option.some.inj hdm
        exact (SVal.ratMap.inj this.symm)
      rw [this]
      exact ⟨rfl, rfl⟩
    · have hdf := (monthly_nonempty_fields db y m r0 rs hrw).2.2
      rw [hdf] at hdm
      have hdm2 := SVal.ratMap.inj (Option.some.inj hdm.symm)
      rw [hdm2]
      constructor
      · rw [aget_map_val MONTHLY_BUDGET_BY_CATEGORY
          (fun c b => round2 (b.sub (getPR ((byCatCents (r0 :: rs)).map
            (fun q2 => (q2.1, (⟨q2.2, 100⟩ : PRat)))) c))) (strL "shopping")]
        rw [show aget MONTHLY_BUDGET_BY_CATEGORY (strL "shopping") = none from by decide]
        rfl
      · rw [aget_map_val MONTHLY_BUDGET_BY_CATEGORY
          (fun c b => round2 (b.sub (getPR ((byCatCents (r0 :: rs)).map
            (fun q2 => (q2.1, (⟨q2.2, 100⟩ : PRat)))) c))) (strL "bills")]
        rw [show aget MONTHLY_BUDGET_BY_CATEGORY (strL "bills") = none from by decide]
        rfl
  · intro db y m t h1 h2 h3 _
    rw [totalSpentQ_eq, totalSpentQ_eq, overUnderQ_eq, overUnderQ_eq,
        monthRows_append db y m t h1 h2 h3, totalCents_append_one]
    constructor
    · push_cast
      ring
    · push_cast
      ring

/-- Witness for C10: appending a `$12.50` `shopping` transaction in June
2025 raises `total_spent` by `12.50` and lowers `over_under_total` by the
same amount. -/
theorem claim_C10_witness :
    ((⟨7, strL "default", strL "2025-06-10T09:00:00", 1250, strL "USD", none,
        strL "bag", strL "shopping", none, none⟩ : Txn).user_id = defaultUser ∧
     strLeB (monthStartIso 2025 6)
        (⟨7, strL "default", strL "2025-06-10T09:00:00", 1250, strL "USD", none,
          strL "bag", strL "shopping", none, none⟩ : Txn).created_at = true ∧
     strLtB (⟨7, strL "default", strL "2025-06-10T09:00:00", 1250, strL "USD", none,
          strL "bag", strL "shopping", none, none⟩ : Txn).created_at
        (monthStartIso (nextYM 2025 6).1 (nextYM 2025 6).2) = true ∧
     catOf ⟨7, strL "default", strL "2025-06-10T09:00:00", 1250, strL "USD", none,
        strL "bag", strL "shopping", none, none⟩ = strL "shopping") ∧
    (totalSpentQ ⟨(⟨[], 1⟩ : Db).rows ++
        [⟨7, strL "default", strL "2025-06-10T09:00:00", 1250, strL "USD", none,
          strL "bag", strL "shopping", none, none⟩], (⟨[], 1⟩ : Db).nextId⟩ 2025 6
      = totalSpentQ ⟨[], 1⟩ 2025 6 +
        ((⟨7, strL "default", strL "2025-06-10T09:00:00", 1250, strL "USD", none,
          strL "bag", strL "shopping", none, none⟩ : Txn).amount_cents : ℚ) / 100 ∧
     overUnderQ ⟨(⟨[], 1⟩ : Db).rows ++
        [⟨7, strL "default", strL "2025-06-10T09:00:00", 1250, strL "USD", none,
          strL "bag", strL "shopping", none, none⟩], (⟨[], 1⟩ : Db).nextId⟩ 2025 6
      = overUnderQ ⟨[], 1⟩ 2025 6 -
        ((⟨7, strL "default", strL "2025-06-10T09:00:00", 1250, strL "USD", none,
          strL "bag", strL "shopping", none, none⟩ : Txn).amount_cents : ℚ) / 100) :=
  ⟨⟨by decide, by decide, by decide, by decide⟩,
   claim_C10_unbudgeted_categories.2.2 ⟨[], 1⟩ 2025 6
     ⟨7, strL "default", strL "2025-06-10T09:00:00", 1250, strL "USD", none,
       strL "bag", strL "shopping", none, none⟩
     (by decide) (by decide) (by decide) (Or.inl (by decide))⟩
